import Mathlib

/-!
Verification of the ingress-anubis reconciliation engine.

The Go source is shallowly embedded: Kubernetes objects become Lean
structures carrying exactly the fields the controller reads or writes,
the controller-runtime client becomes an explicit cluster state threaded
through a small state-and-trace monad, and every fallible Go call
returns an `Outcome` distinguishing ordinary errors, terminal errors
(`reconcile.TerminalError`) and panics (nil-pointer dereferences).

Go maps (`map[string]string`) are modelled as association lists with a
replace-in-place insert.  Go's map iteration order is unspecified and
randomized, and the deployment mutate closure makes it observable by
ranging over a map to build the container environment slice
(`for k, v := range envVars`): `mutateDeploymentOrd` therefore takes
the iteration sequence as an explicit parameter, any permutation of
the map's entries being a legitimate run, and order-sensitive
statements quantify over it.  `mutateDeployment` is the instance at
the association-list order, used only where the order cannot matter.
-/

namespace IA

/-- Result outcome of a Go call: success, an error value (with the
`reconcile.TerminalError` marker), or a runtime panic. -/
inductive Outcome (α : Type) : Type
  | ok (a : α)
  | fail (terminal : Bool) (msg : String)
  | panicked (msg : String)
deriving DecidableEq, Repr

/-- True exactly for an error outcome that is not marked terminal. -/
def Outcome.isRetriableFail {α : Type} : Outcome α → Bool
  | .fail false _ => true
  | _ => false

/-- True exactly for an error outcome marked with `reconcile.TerminalError`. -/
def Outcome.isTerminalFail {α : Type} : Outcome α → Bool
  | .fail true _ => true
  | _ => false

/-- Object identity in the store: (namespace, name). -/
abbrev ObjKey := String × String

/-- Association-list lookup, modelling Go map indexing `m[k]` (with
`ok` reported through the `Option`). -/
def lookupL : List (String × String) → String → Option String
  | [], _ => none
  | (k', v) :: t, k => if k' = k then some v else lookupL t k

/-- Association-list insert, modelling Go map assignment `m[k] = v`:
replaces the existing entry in place, otherwise appends. -/
def insertL : List (String × String) → String → String → List (String × String)
  | [], k, v => [(k, v)]
  | (k', v') :: t, k, v => if k' = k then (k, v) :: t else (k', v') :: insertL t k v

/-- Inserts every pair of `ps` into `m`, modelling `maps.Insert`. -/
def insertAll (m : List (String × String)) (ps : List (String × String)) :
    List (String × String) :=
  ps.foldl (fun acc kv => insertL acc kv.1 kv.2) m

/-- Generic typed store lookup, modelling `client.Get` by object key. -/
def getR {α : Type} : List (ObjKey × α) → ObjKey → Option α
  | [], _ => none
  | (k', v) :: t, k => if k' = k then some v else getR t k

/-- Generic typed store write, modelling create/update at a key. -/
def putR {α : Type} : List (ObjKey × α) → ObjKey → α → List (ObjKey × α)
  | [], k, v => [(k, v)]
  | (k', v') :: t, k, v => if k' = k then (k, v) :: t else (k', v') :: putR t k v

/-- Generic typed store delete, modelling `client.Delete` at a key. -/
def delR {α : Type} (l : List (ObjKey × α)) (k : ObjKey) : List (ObjKey × α) :=
  l.filter (fun kv => kv.1 != k)

/-- Models Go `strings.Split(s, "--")` by scanning runes left to right,
splitting around each non-overlapping occurrence of `--`. -/
def splitDDAux : List Char → List Char → List String
  | [], acc => [String.mk acc.reverse]
  | '-' :: '-' :: rest, acc => String.mk acc.reverse :: splitDDAux rest []
  | c :: rest, acc => splitDDAux rest (c :: acc)

/-- Go `strings.Split(s, "--")`. -/
def splitDD (s : String) : List String := splitDDAux s.data []

/-- Digits-only numeral parse used by `atoi`. -/
def digitsToNat : List Char → Option Nat
  | [] => none
  | l =>
    if l.all (fun c => c.isDigit) then
      some (l.foldl (fun a c => a * 10 + (c.toNat - 48)) 0)
    else none

/-- Models Go `strconv.Atoi`: an optional sign followed by at least one
digit (the int64 overflow bound is not modelled; directive values are
small). -/
def atoi (s : String) : Option Int :=
  match s.data with
  | '+' :: rest => (digitsToNat rest).map (fun n => (n : Int))
  | '-' :: rest => (digitsToNat rest).map (fun n => -(n : Int))
  | l => (digitsToNat l).map (fun n => (n : Int))

/-- Models Go `strconv.ParseBool`, accepting exactly its value set. -/
def parseBool (s : String) : Option Bool :=
  match s with
  | "1" | "t" | "T" | "TRUE" | "true" | "True" => some true
  | "0" | "f" | "F" | "FALSE" | "false" | "False" => some false
  | _ => none

/-- Models Go `strconv.FormatBool`. -/
def formatBool (b : Bool) : String := if b then "true" else "false"

/-! ## Kubernetes object model

Structures mirror the `networkingv1` / `corev1` / `appsv1` fields the
controller reads or writes.  Go nil-able pointers become `Option`;
`creationTimestampIsZero` stands for `CreationTimestamp.IsZero()` and
`deletionTimestampIsZero` for `DeletionTimestamp.IsZero()`. -/

/-- Go `intstr.IntOrString`. -/
inductive IntOrStr : Type
  | i (n : Int)
  | s (v : String)
deriving DecidableEq, Repr

/-- `networkingv1.ServiceBackendPort`. -/
structure ServiceBackendPort where
  name : String := ""
  number : Int := 0
deriving DecidableEq, Repr

/-- `networkingv1.IngressServiceBackend`. -/
structure IngressServiceBackend where
  name : String := ""
  port : ServiceBackendPort := {}
deriving DecidableEq, Repr

/-- `networkingv1.IngressBackend`; `service` is a nil-able pointer. -/
structure IngressBackend where
  service : Option IngressServiceBackend := none
deriving DecidableEq, Repr

/-- `networkingv1.HTTPIngressPath`. -/
structure HTTPIngressPath where
  path : String := ""
  backend : IngressBackend := {}
deriving DecidableEq, Repr

/-- `networkingv1.HTTPIngressRuleValue`. -/
structure HTTPIngressRuleValue where
  paths : List HTTPIngressPath := []
deriving DecidableEq, Repr

/-- `networkingv1.IngressRule`; `http` is a nil-able pointer. -/
structure IngressRule where
  host : String := ""
  http : Option HTTPIngressRuleValue := none
deriving DecidableEq, Repr

/-- `networkingv1.IngressSpec`. -/
structure IngressSpec where
  ingressClassName : Option String := none
  defaultBackend : Option IngressBackend := none
  rules : List IngressRule := []
deriving DecidableEq, Repr

/-- `networkingv1.IngressStatus`: observed load-balancer state, kept
opaque as a list of address strings (the controller only copies it
verbatim). -/
structure IngressStatus where
  loadBalancerIngress : List String := []
deriving DecidableEq, Repr

/-- `networkingv1.Ingress` with the metadata the controller touches. -/
structure Ingress where
  name : String := ""
  ns : String := ""
  labels : List (String × String) := []
  annotations : List (String × String) := []
  finalizers : List String := []
  deletionTimestampIsZero : Bool := true
  creationTimestampIsZero : Bool := true
  spec : IngressSpec := {}
  status : IngressStatus := {}
deriving DecidableEq, Repr

/-- `corev1.ServicePort`. -/
structure ServicePort where
  name : String := ""
  port : Int := 0
  protocol : String := ""
  targetPort : IntOrStr := .i 0
deriving DecidableEq, Repr

/-- `corev1.ServiceSpec`. -/
structure ServiceSpec where
  ports : List ServicePort := []
  selector : List (String × String) := []
  type : String := ""
deriving DecidableEq, Repr

/-- `corev1.Service` with the metadata the controller touches. -/
structure Service where
  name : String := ""
  ns : String := ""
  labels : List (String × String) := []
  creationTimestampIsZero : Bool := true
  spec : ServiceSpec := {}
deriving DecidableEq, Repr

/-- `corev1.EnvVar`. -/
structure EnvVar where
  name : String := ""
  value : String := ""
deriving DecidableEq, Repr

/-- `corev1.EnvFromSource`: a configmap or secret reference by name. -/
structure EnvFromSource where
  configMapRef : Option String := none
  secretRef : Option String := none
deriving DecidableEq, Repr

/-- `corev1.ContainerPort`. -/
structure ContainerPort where
  name : String := ""
  containerPort : Int := 0
deriving DecidableEq, Repr

/-- `corev1.Probe` restricted to the HTTPGet handler the code builds. -/
structure Probe where
  failureThreshold : Int := 0
  httpGetPort : IntOrStr := .i 0
  httpGetPath : String := ""
deriving DecidableEq, Repr

/-- `corev1.SecurityContext`. -/
structure SecurityContext where
  allowPrivilegeEscalation : Option Bool := none
  runAsUser : Option Int := none
  runAsGroup : Option Int := none
  runAsNonRoot : Option Bool := none
  readOnlyRootFilesystem : Option Bool := none
  capabilitiesDrop : List String := []
  seccompProfileType : String := ""
deriving DecidableEq, Repr

/-- `corev1.VolumeMount` (decoded form; the JSON text in process config
is modelled as its decoded value, see `Config.volumeMounts`). -/
structure VolumeMount where
  name : String := ""
  mountPath : String := ""
deriving DecidableEq, Repr

/-- `corev1.Volume`, kept opaque by name and source description. -/
structure Volume where
  name : String := ""
  source : String := ""
deriving DecidableEq, Repr

/-- `corev1.Container` restricted to the fields the controller sets. -/
structure Container where
  name : String := ""
  image : String := ""
  env : List EnvVar := []
  envFrom : List EnvFromSource := []
  ports : List ContainerPort := []
  readinessProbe : Option Probe := none
  volumeMounts : List VolumeMount := []
  securityContext : Option SecurityContext := none
deriving DecidableEq, Repr

/-- `corev1.PodTemplateSpec` restricted to the fields the controller sets. -/
structure PodTemplateSpec where
  labels : List (String × String) := []
  annotations : List (String × String) := []
  containers : List Container := []
  volumes : List Volume := []
deriving DecidableEq, Repr

/-- `metav1.LabelSelector` (matchLabels only). -/
structure LabelSelector where
  matchLabels : List (String × String) := []
deriving DecidableEq, Repr

/-- `appsv1.DeploymentSpec` restricted to the fields the controller sets. -/
structure DeploymentSpec where
  selector : Option LabelSelector := none
  replicas : Option Int := none
  strategyType : String := ""
  template : PodTemplateSpec := {}
deriving DecidableEq, Repr

/-- `appsv1.Deployment` with the metadata the controller touches. -/
structure Deployment where
  name : String := ""
  ns : String := ""
  labels : List (String × String) := []
  creationTimestampIsZero : Bool := true
  spec : DeploymentSpec := {}
deriving DecidableEq, Repr

/-! ## Controller constants and process configuration -/

/-- Label used to track what is managed by this controller. -/
def ManagedLabel : String := "ingress-anubis.jaredallard.github.com/managed"

/-- Label used to store the owning ingress. -/
def OwningLabel : String := "ingress-anubis.jaredallard.github.com/owner"

/-- Key used for ingress-anubis's finalizer. -/
def FinalizerKey : String := "ingress-anubis.jaredallard.github.com/finalizer"

/-- Process-wide configuration (`config.Config`) restricted to the
fields the reconciler reads.  `volumeMounts`/`volumes` stand for the
best-effort JSON-decoded value of the corresponding config strings
(the decode itself is an external deterministic library call). -/
structure Config where
  ns : String := "ingress-anubis"
  anubisVersion : String := "v1.17.0"
  anubisImage : String := "ghcr.io/techarohq/anubis"
  ingressClassName : String := "anubis"
  wrappedIngressClassName : String := "nginx"
  environmentVariables : List (String × String) := []
  annotations : List (String × String) := []
  envFromCM : String := ""
  envFromSec : String := ""
  volumeMounts : List VolumeMount := []
  volumes : List Volume := []
deriving DecidableEq, Repr

/-! ## Directive extraction (internal/config, as present under src) -/

/-- Base of the supported annotations. -/
def AnnotationKeyBase : String := "ingress-anubis.jaredallard.github.com/"

/-- Annotation key for the difficulty directive. -/
def AnnotationKeyDifficulty : String := AnnotationKeyBase ++ "difficulty"

/-- Annotation key for the serve-robots-txt directive. -/
def AnnotationKeyServeRobotsTxt : String := AnnotationKeyBase ++ "serve-robots-txt"

/-- Annotation key for the ingress-class directive. -/
def AnnotationKeyIngressClass : String := AnnotationKeyBase ++ "ingress-class"

/-- All valid annotation keys, in the source array order. -/
def AnnotationKeys : List String :=
  [AnnotationKeyDifficulty, AnnotationKeyServeRobotsTxt, AnnotationKeyIngressClass]

/-- `config.IngressConfig` as declared in the extractor file under src:
difficulty, serve-robots-txt and ingress-class, all nil-able pointers. -/
structure IngressConfig where
  difficulty : Option Int := none
  serveRobotsTxt : Option Bool := none
  ingressClass : Option String := none
deriving DecidableEq, Repr

/-- `config.applyDefaults`: fills difficulty (4) and serve-robots-txt
(true) when unset; the ingress-class field is left as it is. -/
def applyDefaults (ic : IngressConfig) : IngressConfig :=
  let ic := if ic.difficulty = none then { ic with difficulty := some 4 } else ic
  if ic.serveRobotsTxt = none then { ic with serveRobotsTxt := some true } else ic

/-- One iteration of the annotation loop in
`config.GetIngressConfigFromIngress`: look up the key, then switch on
it.  An unrecognized key reaching the switch is the Go `panic` branch
(dead for the keys actually iterated). -/
def applyAnnKey (anns : List (String × String)) (cfg : IngressConfig) (k : String) :
    Outcome IngressConfig :=
  match lookupL anns k with
  | none => .ok cfg
  | some v =>
    if k = AnnotationKeyServeRobotsTxt then
      match parseBool v with
      | none =>
        .fail false ("failed to parse annotation " ++ k ++ " value \"" ++ v ++ "\" as bool")
      | some b => .ok { cfg with serveRobotsTxt := some b }
    else if k = AnnotationKeyDifficulty then
      match atoi v with
      | none =>
        .fail false ("failed to parse annotation " ++ k ++ " value \"" ++ v ++ "\" as int")
      | some d => .ok { cfg with difficulty := some d }
    else if k = AnnotationKeyIngressClass then
      .ok { cfg with ingressClass := some v }
    else .panicked ("unknown annotation key \"" ++ k ++ "\"")

/-- The annotation loop of `config.GetIngressConfigFromIngress`,
short-circuiting on the first error. -/
def foldAnnKeys (anns : List (String × String)) :
    List String → IngressConfig → Outcome IngressConfig
  | [], cfg => .ok cfg
  | k :: ks, cfg =>
    match applyAnnKey anns cfg k with
    | .ok cfg' => foldAnnKeys anns ks cfg'
    | .fail t m => .fail t m
    | .panicked m => .panicked m

/-- `config.GetIngressConfigFromIngress`: captures values from the
annotations if present, then applies defaults.  A nil ingress (or nil
annotation map) skips the capture loop. -/
def GetIngressConfigFromIngress (ing : Option Ingress) : Outcome IngressConfig :=
  match ing with
  | none => .ok (applyDefaults {})
  | some i =>
    match foldAnnKeys i.annotations AnnotationKeys {} with
    | .ok cfg => .ok (applyDefaults cfg)
    | .fail t m => .fail t m
    | .panicked m => .panicked m

/-! ## Directive extraction (revision the reconciler is compiled with) -/

/-- Modelled from the spec: the directive-extractor revision the
reconciler is compiled against is not under src (only its unit test and
its caller are).  Per the spec's Directive Configuration, it also
carries the metadata-passthrough flag (default true) and the computed
metrics port, plus the optional extra environment sources, all of which
the reconciler dereferences or reads; the remaining fields and the
parse/default behaviour mirror the extractor file that is under src. -/
structure IngressConfigM where
  difficulty : Option Int := none
  metricsPort : Option Int := none
  serveRobotsTxt : Option Bool := none
  ogPassthrough : Option Bool := none
  ingressClass : Option String := none
  envFromCM : Option String := none
  envFromSec : Option String := none
deriving DecidableEq, Repr

/-- Modelled from the spec: annotation key of the metadata-passthrough
directive. -/
def AnnotationKeyOGPassthrough : String := AnnotationKeyBase ++ "og-passthrough"

/-- Modelled from the spec: defaults of the extractor revision the
reconciler uses — difficulty 4, serve-robots-txt true,
metadata-passthrough true, metrics port 9090 (the port the readiness
probe and metrics bind use); optional fields stay unset. -/
def applyDefaultsM (ic : IngressConfigM) : IngressConfigM :=
  let ic := if ic.difficulty = none then { ic with difficulty := some 4 } else ic
  let ic := if ic.metricsPort = none then { ic with metricsPort := some 9090 } else ic
  let ic := if ic.serveRobotsTxt = none then { ic with serveRobotsTxt := some true } else ic
  if ic.ogPassthrough = none then { ic with ogPassthrough := some true } else ic

/-- Modelled from the spec: one iteration of the annotation loop of the
extractor revision the reconciler uses; same parse-or-fail behaviour as
the extractor under src, extended with the metadata-passthrough key. -/
def applyAnnKeyM (anns : List (String × String)) (cfg : IngressConfigM) (k : String) :
    Outcome IngressConfigM :=
  match lookupL anns k with
  | none => .ok cfg
  | some v =>
    if k = AnnotationKeyServeRobotsTxt then
      match parseBool v with
      | none =>
        .fail false ("failed to parse annotation " ++ k ++ " value \"" ++ v ++ "\" as bool")
      | some b => .ok { cfg with serveRobotsTxt := some b }
    else if k = AnnotationKeyOGPassthrough then
      match parseBool v with
      | none =>
        .fail false ("failed to parse annotation " ++ k ++ " value \"" ++ v ++ "\" as bool")
      | some b => .ok { cfg with ogPassthrough := some b }
    else if k = AnnotationKeyDifficulty then
      match atoi v with
      | none =>
        .fail false ("failed to parse annotation " ++ k ++ " value \"" ++ v ++ "\" as int")
      | some d => .ok { cfg with difficulty := some d }
    else if k = AnnotationKeyIngressClass then
      .ok { cfg with ingressClass := some v }
    else .panicked ("unknown annotation key \"" ++ k ++ "\"")

/-- Modelled from the spec: the annotation loop of the extractor
revision the reconciler uses. -/
def foldAnnKeysM (anns : List (String × String)) :
    List String → IngressConfigM → Outcome IngressConfigM
  | [], cfg => .ok cfg
  | k :: ks, cfg =>
    match applyAnnKeyM anns cfg k with
    | .ok cfg' => foldAnnKeysM anns ks cfg'
    | .fail t m => .fail t m
    | .panicked m => .panicked m

/-- Modelled from the spec: key iteration order of the extractor
revision the reconciler uses. -/
def AnnotationKeysM : List String :=
  [AnnotationKeyDifficulty, AnnotationKeyServeRobotsTxt,
   AnnotationKeyIngressClass, AnnotationKeyOGPassthrough]

/-- Modelled from the spec: `config.GetIngressConfigFromIngress` as the
reconciler sees it — capture recognized directives, hard-fail on any
unparsable present value, then apply defaults. -/
def GetIngressConfigM (ing : Option Ingress) : Outcome IngressConfigM :=
  match ing with
  | none => .ok (applyDefaultsM {})
  | some i =>
    match foldAnnKeysM i.annotations AnnotationKeysM {} with
    | .ok cfg => .ok (applyDefaultsM cfg)
    | .fail t m => .fail t m
    | .panicked m => .panicked m

/-! ## Cluster state, events, and the client monad -/

/-- The kind of a generated (triad) resource. -/
inductive Kind : Type
  | dep
  | svc
  | ing
deriving DecidableEq, Repr

/-- Observable controller actions, recorded as a trace: component entry
points (`resolve`, `extract`, `sync`), store writes, and the service
lookup the resolver performs for named ports. -/
inductive Ev : Type
  | resolve
  | svcLookup (key : ObjKey)
  | extract
  | sync (k : Kind)
  | created (k : Kind)
  | updated (k : Kind)
  | deleted (k : Kind)
  | addedFinalizer (key : ObjKey)
  | removedFinalizer (key : ObjKey)
  | statusPatched (key : ObjKey)
deriving DecidableEq, Repr

/-- The declarative resource store: every ingress (sources and the
managed child), service, and deployment, keyed by namespace/name. -/
structure Cluster where
  ingresses : List (ObjKey × Ingress) := []
  services : List (ObjKey × Service) := []
  deployments : List (ObjKey × Deployment) := []
deriving DecidableEq, Repr

/-- Reconciliation state: the cluster plus the event trace so far. -/
structure RState where
  cluster : Cluster := {}
  trace : List Ev := []
deriving DecidableEq, Repr

/-- State-and-trace monad for client interactions; errors and panics
abort the rest of the computation, keeping the state reached so far. -/
def M (α : Type) : Type := RState → Outcome α × RState

/-- Monad bind for `M`. -/
def M.bind {α β : Type} (x : M α) (f : α → M β) : M β := fun s =>
  match x s with
  | (.ok a, s') => f a s'
  | (.fail t m, s') => (.fail t m, s')
  | (.panicked m, s') => (.panicked m, s')

/-- Monad unit for `M`. -/
def M.pure {α : Type} (a : α) : M α := fun s => (.ok a, s)

instance monadM : Monad M where
  pure := M.pure
  bind := M.bind

/-- Reads the current cluster. -/
def getCl : M Cluster := fun s => (.ok s.cluster, s)

/-- Replaces the cluster. -/
def setCl (c : Cluster) : M Unit := fun s => (.ok (), { s with cluster := c })

/-- Appends an event to the trace. -/
def emit (e : Ev) : M Unit := fun s => (.ok (), { s with trace := s.trace ++ [e] })

/-- Raises a Go error (`terminal` marks `reconcile.TerminalError`). -/
def throwE {α : Type} (terminal : Bool) (m : String) : M α := fun s =>
  (.fail terminal m, s)

/-- Raises a Go panic. -/
def panicE {α : Type} (m : String) : M α := fun s => (.panicked m, s)

/-- Lifts a pure `Outcome` into the monad. -/
def liftO {α : Type} : Outcome α → M α
  | .ok a => M.pure a
  | .fail t m => throwE t m
  | .panicked m => panicE m

/-! ## The reconciler (internal/controller) -/

/-- The result a reconciliation pass hands back to the delivery
substrate (`reconcile.Result`). -/
structure RResult where
  requeue : Bool := false
deriving DecidableEq, Repr

/-- `IngressReconciler.mirrorStatus`: mirrors the status from a managed
ingress to the owning ingressClass'd ingress.  The owner is recovered
by splitting the owner-label value on `--`; a value that does not split
into exactly two parts is an ordinary (non-terminal) error; a missing
owner is a silent no-op. -/
def mirrorStatus (ing : Ingress) : M RResult := fun s =>
  match lookupL ing.labels OwningLabel with
  | none => (.ok {}, s)
  | some targetIngKey =>
    match splitDD targetIngKey with
    | [nsp, nm] =>
      (match getR s.cluster.ingresses (nsp, nm) with
       | none => (.ok {}, s)
       | some owningIng =>
         (.ok {},
          { cluster :=
              { s.cluster with
                ingresses :=
                  putR s.cluster.ingresses (nsp, nm) { owningIng with status := ing.status } }
            trace := s.trace ++ [.statusPatched (nsp, nm)] }))
    | _ =>
      (.fail false
        ("failed to determine owner from owning label value \"" ++ targetIngKey ++ "\""), s)

/-- `IngressReconciler.getTargetFromService`: returns the in-cluster
URL for the backend.  A numeric port is used directly; a named port
triggers a service lookup and a scan of the service's ports.  The
`isb` argument is a nil-able pointer the Go code dereferences without
a guard. -/
def getTargetFromService (ns : String) (isb : Option IngressServiceBackend) :
    M String := fun s0 =>
  let s := { s0 with trace := s0.trace ++ [Ev.resolve] }
  match isb with
  | none => (.panicked "invalid memory address or nil pointer dereference", s)
  | some isb =>
    let port := isb.port.number
    if isb.port.name = "" then
      (.ok ("http://" ++ isb.name ++ "." ++ ns ++ ".svc.cluster.local:" ++ toString port), s)
    else
      let s := { s with trace := s.trace ++ [Ev.svcLookup (ns, isb.name)] }
      match getR s.cluster.services (ns, isb.name) with
      | none =>
        (.fail false "failed to look up service for port name translation: not found", s)
      | some svc =>
        let found : Int :=
          match svc.spec.ports.find? (fun p => p.name = isb.port.name) with
          | some p => p.port
          | none => port
        if found = 0 then
          (.fail false
            ("failed to find port " ++ isb.port.name ++ " in service " ++ ns ++ "/" ++ isb.name), s)
        else
          (.ok ("http://" ++ isb.name ++ "." ++ ns ++ ".svc.cluster.local:" ++ toString found), s)

/-- `IngressReconciler.getEnvFrom`: EnvFrom block for the current
ingress configuration — process-wide configmap and secret first, then
the per-ingress ones. -/
def getEnvFrom (cfg : Config) (icfg : IngressConfigM) : List EnvFromSource :=
  (if cfg.envFromCM ≠ "" then [{ configMapRef := some cfg.envFromCM }] else [])
  ++ (if cfg.envFromSec ≠ "" then [{ secretRef := some cfg.envFromSec }] else [])
  ++ (match icfg.envFromCM with
      | some n => [({ configMapRef := some n } : EnvFromSource)]
      | none => [])
  ++ (match icfg.envFromSec with
      | some n => [({ secretRef := some n } : EnvFromSource)]
      | none => [])

/-- Identity labels stamped on each generated resource. -/
def genLabels (req : ObjKey) : List (String × String) :=
  [("app.kubernetes.io/instance", "anubis"),
   ("app.kubernetes.io/name", "anubis"),
   (ManagedLabel, "true"),
   (OwningLabel, req.1 ++ "--" ++ req.2)]

/-- The mutate closure of `reconcileDeployment`: desired state of the
worker deployment.  The selector is written only while the object's
creation timestamp is zero (it is immutable); the container environment
is the process-wide map overridden by the engine-owned values.  The env
slice is built here in the association-list order, but the source
ranges over a Go map whose iteration order is unspecified:
`mutateDeploymentOrd` below takes that order as an explicit parameter,
and this definition is its association-list-order instance
(`mutateDeploymentOrd_canonical`).  Dereferencing an unset directive
pointer is the Go nil-pointer panic. -/
def mutateDeployment (cfg : Config) (target : String) (icfg : IngressConfigM)
    (req : ObjKey) (dep : Deployment) : Outcome Deployment :=
  match icfg.difficulty, icfg.metricsPort, icfg.serveRobotsTxt, icfg.ogPassthrough with
  | some diff, some mp, some srt, some ogp =>
    let labels := genLabels req
    let selector :=
      if dep.creationTimestampIsZero then some (LabelSelector.mk labels) else dep.spec.selector
    let envVars := insertAll cfg.environmentVariables
      [("BIND", ":8080"),
       ("DIFFICULTY", toString diff),
       ("METRICS_BIND", ":" ++ toString mp),
       ("SERVE_ROBOTS_TXT", formatBool srt),
       ("TARGET", target),
       ("OG_PASSTHROUGH", formatBool ogp)]
    let cEnvVars := envVars.map (fun kv => EnvVar.mk kv.1 kv.2)
    .ok { dep with
      labels := labels
      spec := { dep.spec with
        selector := selector
        replicas := some 1
        strategyType := "Recreate"
        template := {
          labels := labels
          annotations := cfg.annotations
          containers := [{
            name := "main"
            image := cfg.anubisImage ++ ":" ++ cfg.anubisVersion
            env := cEnvVars
            readinessProbe := some { failureThreshold := 3, httpGetPort := .i mp,
                                     httpGetPath := "/metrics" }
            envFrom := getEnvFrom cfg icfg
            ports := [{ name := "http", containerPort := 8080 },
                      { name := "http-metrics", containerPort := mp }]
            volumeMounts := cfg.volumeMounts
            securityContext := some {
              allowPrivilegeEscalation := some false
              runAsUser := some 1000
              runAsGroup := some 1000
              runAsNonRoot := some true
              readOnlyRootFilesystem := some true
              capabilitiesDrop := ["ALL"]
              seccompProfileType := "RuntimeDefault" }
          }]
          volumes := cfg.volumes } } }
  | _, _, _, _ => .panicked "invalid memory address or nil pointer dereference"

/-- `controllerutil.CreateOrUpdate` for the worker deployment: fetch or
create the named object, run the mutate closure, and write back only
when something changed. -/
def reconcileDeployment (cfg : Config) (target : String) (icfg : IngressConfigM)
    (req : ObjKey) : M Unit := do
  emit (.sync .dep)
  let key : ObjKey := (cfg.ns, "ia-" ++ req.2)
  let c ← getCl
  match getR c.deployments key with
  | none =>
    let fresh : Deployment := { name := "ia-" ++ req.2, ns := cfg.ns }
    let d ← liftO (mutateDeployment cfg target icfg req fresh)
    setCl { c with deployments := putR c.deployments key { d with creationTimestampIsZero := false } }
    emit (.created .dep)
  | some existing =>
    let d ← liftO (mutateDeployment cfg target icfg req existing)
    if d = existing then M.pure ()
    else do
      setCl { c with deployments := putR c.deployments key d }
      emit (.updated .dep)

/-- The mutate closure of `reconcileService`: desired state of the
routing service (single http port, ClusterIP, selector equal to the
generated-resource identity labels). -/
def mutateService (req : ObjKey) (serv : Service) : Service :=
  { serv with
    spec := { serv.spec with
      ports := [{ name := "http", port := 8080, protocol := "TCP", targetPort := .s "http" }]
      selector := genLabels req
      type := "ClusterIP" } }

/-- `controllerutil.CreateOrUpdate` for the routing service. -/
def reconcileService (cfg : Config) (req : ObjKey) : M Unit := do
  emit (.sync .svc)
  let key : ObjKey := (cfg.ns, "ia-" ++ req.2)
  let c ← getCl
  match getR c.services key with
  | none =>
    let fresh : Service := { name := "ia-" ++ req.2, ns := cfg.ns }
    let d := mutateService req fresh
    setCl { c with services := putR c.services key { d with creationTimestampIsZero := false } }
    emit (.created .svc)
  | some existing =>
    let d := mutateService req existing
    if d = existing then M.pure ()
    else do
      setCl { c with services := putR c.services key d }
      emit (.updated .svc)

/-- The mutate closure of `reconcileChildIngress`: deep copy of the
source spec and annotations, wrapped-class name from the directive
override or the process default, identity labels inserted, and every
backend (default backend and every rule path) rewritten to the
generated service's named http port. -/
def mutateChildIngress (cfg : Config) (origIng : Ingress) (icfg : IngressConfigM)
    (req : ObjKey) (ing : Ingress) : Ingress :=
  let labels := genLabels req
  let className :=
    match icfg.ingressClass with
    | some c => some c
    | none => some cfg.wrappedIngressClassName
  let backend : IngressServiceBackend :=
    { name := "ia-" ++ req.2, port := { name := "http", number := 0 } }
  let db :=
    match origIng.spec.defaultBackend with
    | some b => some { b with service := some backend }
    | none => none
  let rewritePath := fun (p : HTTPIngressPath) =>
    { p with backend := { p.backend with service := some backend } }
  let rules := origIng.spec.rules.map (fun r =>
    match r.http with
    | none => r
    | some h => { r with http := some { h with paths := h.paths.map rewritePath } })
  { ing with
    spec := { origIng.spec with ingressClassName := className, defaultBackend := db, rules := rules }
    annotations := origIng.annotations
    labels := insertAll ing.labels labels }

/-- `controllerutil.CreateOrUpdate` for the rewritten child ingress. -/
def reconcileChildIngress (cfg : Config) (origIng : Ingress) (icfg : IngressConfigM)
    (req : ObjKey) : M Unit := do
  emit (.sync .ing)
  let key : ObjKey := (cfg.ns, "ia-" ++ req.2)
  let c ← getCl
  match getR c.ingresses key with
  | none =>
    let fresh : Ingress := { name := "ia-" ++ req.2, ns := cfg.ns }
    let d := mutateChildIngress cfg origIng icfg req fresh
    setCl { c with ingresses := putR c.ingresses key { d with creationTimestampIsZero := false } }
    emit (.created .ing)
  | some existing =>
    let d := mutateChildIngress cfg origIng icfg req existing
    if d = existing then M.pure ()
    else do
      setCl { c with ingresses := putR c.ingresses key d }
      emit (.updated .ing)

/-- `IngressReconciler.deleteResources`: deletes the child ingress, the
service, and the deployment, in that order, each tolerant of the
resource already being absent. -/
def deleteResources (cfg : Config) (name : String) : M Unit := do
  let key : ObjKey := (cfg.ns, "ia-" ++ name)
  let c ← getCl
  match getR c.ingresses key with
  | some _ => do
    setCl { c with ingresses := delR c.ingresses key }
    emit (.deleted .ing)
  | none => M.pure ()
  let c ← getCl
  match getR c.services key with
  | some _ => do
    setCl { c with services := delR c.services key }
    emit (.deleted .svc)
  | none => M.pure ()
  let c ← getCl
  match getR c.deployments key with
  | some _ => do
    setCl { c with deployments := delR c.deployments key }
    emit (.deleted .dep)
  | none => M.pure ()

/-- The backend-selection block of `Reconcile` (lines 164-186): prefer
the default backend, else the first rule's first path; missing rules,
nil HTTP block or empty path list are terminal errors.  The selected
service backend is itself a nil-able pointer. -/
def selectBackend (origIng : Ingress) : Outcome (Option IngressServiceBackend) :=
  match origIng.spec.defaultBackend with
  | some db => .ok db.service
  | none =>
    match origIng.spec.rules with
    | [] => .fail true "no rules or default backend in ingress"
    | rule :: _ =>
      match rule.http with
      | none => .fail true "ingress rule 0 HTTP was nil"
      | some http =>
        match http.paths with
        | [] => .fail true "ingress rule 0 paths was empty"
        | path :: _ => .ok path.backend.service

/-- The triad-synchronization tail of `Reconcile`: deployment, then
service, then child ingress. -/
def syncTriad (cfg : Config) (target : String) (origIng : Ingress)
    (icfg : IngressConfigM) (req : ObjKey) : M Unit := do
  reconcileDeployment cfg target icfg req
  reconcileService cfg req
  reconcileChildIngress cfg origIng icfg req

/-- The environment map `reconcileDeployment` assembles before ranging
over it: the process-wide variables overridden by the engine-owned
entries, in the source's write order. -/
def depEnvMap (cfg : Config) (target : String) (diff mp : Int) (srt ogp : Bool) :
    List (String × String) :=
  insertAll cfg.environmentVariables
    [("BIND", ":8080"),
     ("DIFFICULTY", toString diff),
     ("METRICS_BIND", ":" ++ toString mp),
     ("SERVE_ROBOTS_TXT", formatBool srt),
     ("TARGET", target),
     ("OG_PASSTHROUGH", formatBool ogp)]

/-- The env lists of a deployment's containers. -/
def envsOf (d : Deployment) : List (List EnvVar) :=
  d.spec.template.containers.map (fun c => c.env)

/-- The deployment with every container's env list replaced. -/
def withEnv (d : Deployment) (e : List EnvVar) : Deployment :=
  { d with spec := { d.spec with template := { d.spec.template with
      containers := d.spec.template.containers.map (fun c => { c with env := e }) } } }

/-- The mutate closure of `reconcileDeployment` with the map iteration
order explicit: `envIter` is the sequence in which the
`for k, v := range envVars` loop visits the environment map.  Go's
iteration order is unspecified and randomized, so any permutation of
the map's entries is a legitimate `envIter`; `mutateDeployment` is the
instance at the association-list order. -/
def mutateDeploymentOrd (cfg : Config) (target : String) (icfg : IngressConfigM)
    (req : ObjKey) (envIter : List (String × String)) (dep : Deployment) :
    Outcome Deployment :=
  match icfg.difficulty, icfg.metricsPort, icfg.serveRobotsTxt, icfg.ogPassthrough with
  | some diff, some mp, some srt, some ogp =>
    let labels := genLabels req
    let selector :=
      if dep.creationTimestampIsZero then some (LabelSelector.mk labels) else dep.spec.selector
    let cEnvVars := envIter.map (fun kv => EnvVar.mk kv.1 kv.2)
    .ok { dep with
      labels := labels
      spec := { dep.spec with
        selector := selector
        replicas := some 1
        strategyType := "Recreate"
        template := {
          labels := labels
          annotations := cfg.annotations
          containers := [{
            name := "main"
            image := cfg.anubisImage ++ ":" ++ cfg.anubisVersion
            env := cEnvVars
            readinessProbe := some { failureThreshold := 3, httpGetPort := .i mp,
                                     httpGetPath := "/metrics" }
            envFrom := getEnvFrom cfg icfg
            ports := [{ name := "http", containerPort := 8080 },
                      { name := "http-metrics", containerPort := mp }]
            volumeMounts := cfg.volumeMounts
            securityContext := some {
              allowPrivilegeEscalation := some false
              runAsUser := some 1000
              runAsGroup := some 1000
              runAsNonRoot := some true
              readOnlyRootFilesystem := some true
              capabilitiesDrop := ["ALL"]
              seccompProfileType := "RuntimeDefault" }
          }]
          volumes := cfg.volumes } } }
  | _, _, _, _ => .panicked "invalid memory address or nil pointer dereference"

/-- `controllerutil.CreateOrUpdate` for the worker deployment with the
map iteration order explicit: one reconciliation pass observes one
order, and `CreateOrUpdate`'s deep-equality check compares the env
slices element-wise, so the order decides whether an update is
issued. -/
def reconcileDeploymentOrd (cfg : Config) (target : String) (icfg : IngressConfigM)
    (req : ObjKey) (envIter : List (String × String)) : M Unit := do
  emit (.sync .dep)
  let key : ObjKey := (cfg.ns, "ia-" ++ req.2)
  let c ← getCl
  match getR c.deployments key with
  | none =>
    let fresh : Deployment := { name := "ia-" ++ req.2, ns := cfg.ns }
    let d ← liftO (mutateDeploymentOrd cfg target icfg req envIter fresh)
    setCl { c with deployments := putR c.deployments key { d with creationTimestampIsZero := false } }
    emit (.created .dep)
  | some existing =>
    let d ← liftO (mutateDeploymentOrd cfg target icfg req envIter existing)
    if d = existing then M.pure ()
    else do
      setCl { c with deployments := putR c.deployments key d }
      emit (.updated .dep)

/-- The triad-synchronization tail of `Reconcile` with the deployment
pass's map iteration order explicit. -/
def syncTriadOrd (cfg : Config) (target : String) (origIng : Ingress)
    (icfg : IngressConfigM) (req : ObjKey) (envIter : List (String × String)) : M Unit := do
  reconcileDeploymentOrd cfg target icfg req envIter
  reconcileService cfg req
  reconcileChildIngress cfg origIng icfg req

/-- The claim gate of `Reconcile`:
`Spec.IngressClassName == nil || *Spec.IngressClassName != cfg.IngressClassName`. -/
def notOurs (cfg : Config) (i : Ingress) : Bool :=
  match i.spec.ingressClassName with
  | none => true
  | some cn => cn != cfg.ingressClassName

/-- `IngressReconciler.Reconcile`: fetch the source ingress; ignore a
missing one; mirror status for managed ingresses of another class;
reject a managed ingress of our own class as terminal; prune and
release the finalizer on deletion; attach the finalizer (and requeue)
when absent; otherwise resolve the backend target, extract the
directive configuration, and synchronize the triad. -/
def reconcile (cfg : Config) (req : ObjKey) : M RResult := do
  let c ← getCl
  match getR c.ingresses req with
  | none => M.pure {}
  | some origIng =>
    if notOurs cfg origIng then
      if lookupL origIng.labels ManagedLabel = some "true" then
        mirrorStatus origIng
      else
        M.pure {}
    else if lookupL origIng.labels ManagedLabel = some "true" then
      throwE true "attempted to reconcile ingress owned by self"
    else if origIng.deletionTimestampIsZero = false then do
      deleteResources cfg req.2
      if FinalizerKey ∈ origIng.finalizers then do
        let c ← getCl
        let newIngs := putR c.ingresses req
          { origIng with finalizers := origIng.finalizers.erase FinalizerKey }
        setCl { c with ingresses := newIngs }
        emit (.removedFinalizer req)
      M.pure {}
    else if FinalizerKey ∉ origIng.finalizers then do
      let c ← getCl
      let newIngs := putR c.ingresses req
        { origIng with finalizers := origIng.finalizers ++ [FinalizerKey] }
      setCl { c with ingresses := newIngs }
      emit (.addedFinalizer req)
      M.pure { requeue := true }
    else do
      let svcBackend ← liftO (selectBackend origIng)
      let target ← getTargetFromService origIng.ns svcBackend
      emit .extract
      let icfg ← liftO (GetIngressConfigM (some origIng))
      syncTriad cfg target origIng icfg req
      M.pure {}

/-! ## Concrete demonstration inputs (used by witnesses and counterexamples) -/

/-- Default process configuration. -/
def democfg : Config := {}

/-- A claimed, finalized source ingress with a numeric-port default
backend (end-to-end scenario A shape). -/
def demoWeb : Ingress :=
  { name := "web", ns := "shop"
    spec := { ingressClassName := some "anubis"
              defaultBackend :=
                some { service := some { name := "backend", port := { number := 8080 } } } }
    finalizers := [FinalizerKey] }

/-- Cluster holding only `demoWeb`. -/
def democl : Cluster := { ingresses := [(("shop", "web"), demoWeb)] }

/-- An annotation-free ingress, input of the C6 counterexample. -/
def demoNoAnn : Ingress := { name := "plain", ns := "shop" }

/-- A generated resource carrying a malformed owner-label value. -/
def badOwnerIng : Ingress :=
  { name := "ia-web", ns := "ingress-anubis"
    labels := [(ManagedLabel, "true"), (OwningLabel, "abc")] }

/-- A generated child ingress correctly labelled with its owner and
carrying observed load-balancer status. -/
def demoChild : Ingress :=
  { name := "ia-web", ns := "ingress-anubis"
    labels := genLabels ("shop", "web")
    spec := { ingressClassName := some "nginx" }
    status := { loadBalancerIngress := ["203.0.113.7"] } }

/-- A claimed, finalized source ingress whose default backend has a nil
service reference (for instance a resource-typed default backend). -/
def demoNilService : Ingress :=
  { name := "web", ns := "shop"
    spec := { ingressClassName := some "anubis", defaultBackend := some { service := none } }
    finalizers := [FinalizerKey] }

/-- A claimed, finalized source ingress whose backend needs a named-port
lookup that will fail, and whose difficulty annotation is unparsable:
input of the C4 counterexample. -/
def demoBadBoth : Ingress :=
  { name := "web", ns := "shop"
    annotations := [(AnnotationKeyDifficulty, "abc")]
    spec := { ingressClassName := some "anubis"
              defaultBackend :=
                some { service := some { name := "backend", port := { name := "web" } } } }
    finalizers := [FinalizerKey] }

/-- A claimed source ingress without the finalizer. -/
def demoNoFin : Ingress := { demoWeb with finalizers := [] }

/-- An ingress whose only annotation is an unparsable serve-robots-txt
value (used by the C7 witness). -/
def demoBadRobots : Ingress :=
  { name := "web", ns := "shop"
    annotations := [(AnnotationKeyServeRobotsTxt, "bfalse")] }

/-- A service backend reference with a numeric port. -/
def demoNumericBackend : IngressServiceBackend := { name := "backend", port := { number := 8080 } }

/-- The annotation map of a nil-able ingress reference (a nil ingress
has no annotations). -/
def annsOf : Option Ingress → List (String × String)
  | none => []
  | some i => i.annotations

/-- Cluster holding only `demoNilService`. -/
def demoNilCl : Cluster := { ingresses := [(("shop", "web"), demoNilService)] }

/-- The fully-defaulted directive configuration the reconciler sees. -/
def demoIcfg : IngressConfigM :=
  { difficulty := some 4, metricsPort := some 9090,
    serveRobotsTxt := some true, ogPassthrough := some true }

/-- The resolved demo backend target. -/
def demoUrl : String := "http://backend.shop.svc.cluster.local:8080"

/-- One legitimate iteration of the demo environment map: the entries
in association-list order. -/
def demoEnvCanonical : List (String × String) :=
  [("BIND", ":8080"), ("DIFFICULTY", "4"), ("METRICS_BIND", ":9090"),
   ("SERVE_ROBOTS_TXT", "true"), ("TARGET", demoUrl), ("OG_PASSTHROUGH", "true")]

/-- Another legitimate iteration of the same map: the first two entries
visited in the opposite order. -/
def demoEnvSwapped : List (String × String) :=
  [("DIFFICULTY", "4"), ("BIND", ":8080"), ("METRICS_BIND", ":9090"),
   ("SERVE_ROBOTS_TXT", "true"), ("TARGET", demoUrl), ("OG_PASSTHROUGH", "true")]

/-- True for events that enter a triad synchronization
(`reconcileDeployment` / `reconcileService` / `reconcileChildIngress`). -/
def isSyncEv : Ev → Bool
  | .sync _ => true
  | _ => false

/-- True for store-write events of the synchronizer (creates/updates). -/
def isWriteEv : Ev → Bool
  | .created _ => true
  | .updated _ => true
  | _ => false

/-- True for the resolver entry event. -/
def isResolveEv : Ev → Bool
  | .resolve => true
  | _ => false

/-- True for the extractor entry event. -/
def isExtractEv : Ev → Bool
  | .extract => true
  | _ => false

/-- Every `p`-event in the list occurs before every `q`-event. -/
def allBefore (p q : Ev → Bool) : List Ev → Bool
  | [] => true
  | e :: t => (if q e then t.all (fun x => !(p x)) else true) && allBefore p q t

/-- The deletion events `deleteResources` emits on a given cluster: one
per triad resource that is present. -/
def pruneEvents (c : Cluster) (key : ObjKey) : List Ev :=
  (match getR c.ingresses key with | some _ => [Ev.deleted .ing] | none => [])
  ++ (match getR c.services key with | some _ => [Ev.deleted .svc] | none => [])
  ++ (match getR c.deployments key with | some _ => [Ev.deleted .dep] | none => [])

/-! ## Association-list and store lemmas -/

theorem lookupL_insertL_self (m : List (String × String)) (k v : String) :
    lookupL (insertL m k v) k = some v := by
  induction m with
  | nil => simp [insertL, lookupL]
  | cons hd t ih =>
    obtain ⟨k', v'⟩ := hd
    by_cases h : k' = k <;> simp [insertL, lookupL, h, ih]

theorem lookupL_insertL_ne (m : List (String × String)) (k v q : String) (h : k ≠ q) :
    lookupL (insertL m k v) q = lookupL m q := by
  induction m with
  | nil => simp [insertL, lookupL, h]
  | cons hd t ih =>
    obtain ⟨k', v'⟩ := hd
    by_cases h2 : k' = k
    · subst h2; simp [insertL, lookupL, h]
    · simp [insertL, lookupL, h2, ih]

theorem insertL_noop (m : List (String × String)) (k v : String)
    (h : lookupL m k = some v) : insertL m k v = m := by
  induction m with
  | nil => simp [lookupL] at h
  | cons hd t ih =>
    obtain ⟨k', v'⟩ := hd
    by_cases h2 : k' = k
    · subst h2
      simp [lookupL] at h
      simp [insertL, h]
    · simp [lookupL, h2] at h
      simp [insertL, h2, ih h]

theorem getR_putR_self {α : Type} (l : List (ObjKey × α)) (k : ObjKey) (v : α) :
    getR (putR l k v) k = some v := by
  induction l with
  | nil => simp [putR, getR]
  | cons hd t ih =>
    obtain ⟨k', v'⟩ := hd
    by_cases h : k' = k <;> simp [putR, getR, h, ih]

theorem getR_putR_ne {α : Type} (l : List (ObjKey × α)) (k q : ObjKey) (v : α)
    (h : k ≠ q) : getR (putR l k v) q = getR l q := by
  induction l with
  | nil => simp [putR, getR, h]
  | cons hd t ih =>
    obtain ⟨k', v'⟩ := hd
    by_cases h2 : k' = k
    · subst h2; simp [putR, getR, h]
    · simp [putR, getR, h2, ih]

theorem delR_noop {α : Type} (l : List (ObjKey × α)) (k : ObjKey)
    (h : getR l k = none) : delR l k = l := by
  induction l with
  | nil => simp [delR]
  | cons hd t ih =>
    obtain ⟨k', v'⟩ := hd
    by_cases h2 : k' = k
    · subst h2; simp [getR] at h
    · simp [getR, h2] at h
      simp [delR, bne_iff_ne, h2]
      simpa [delR] using ih h

theorem bind_eq {α β : Type} (x : M α) (f : α → M β) : x >>= f = M.bind x f := rfl

theorem pure_eq {α : Type} (a : α) : (Pure.pure a : M α) = M.pure a := rfl

/-! ## Lifecycle helper lemmas -/

theorem allBefore_split (p q : Ev → Bool) (t u : List Ev)
    (ht : ∀ e ∈ t, q e = false) (hu : ∀ e ∈ u, p e = false) :
    allBefore p q (t ++ u) = true := by
  induction t with
  | nil =>
    induction u with
    | nil => rfl
    | cons e u2 ih =>
      simp only [allBefore, List.nil_append, Bool.and_eq_true]
      refine ⟨?_, ?_⟩
      · by_cases hq : q e = true
        · simp only [hq, if_true, List.all_eq_true]
          intro x hx
          simp [hu x (by simp [hx])]
        · simp [Bool.not_eq_true] at hq
          simp [hq]
      · have h2 := ih (fun e2 he2 => hu e2 (by simp [he2]))
        simpa using h2
  | cons e t2 ih =>
    simp only [allBefore, List.cons_append, Bool.and_eq_true]
    refine ⟨?_, ?_⟩
    · simp [ht e (by simp)]
    · exact ih (fun e2 he2 => ht e2 (by simp [he2]))

theorem deleteResources_run (cfg : Config) (n : String) (s : RState) :
    deleteResources cfg n s =
      (.ok (),
       { cluster := { s.cluster with
           ingresses := delR s.cluster.ingresses (cfg.ns, "ia-" ++ n)
           services := delR s.cluster.services (cfg.ns, "ia-" ++ n)
           deployments := delR s.cluster.deployments (cfg.ns, "ia-" ++ n) }
         trace := s.trace ++ pruneEvents s.cluster (cfg.ns, "ia-" ++ n) }) := by
  rcases hi : getR s.cluster.ingresses (cfg.ns, "ia-" ++ n) with _ | x <;>
  rcases hs : getR s.cluster.services (cfg.ns, "ia-" ++ n) with _ | y <;>
  rcases hd : getR s.cluster.deployments (cfg.ns, "ia-" ++ n) with _ | z <;>
  simp [deleteResources, bind_eq, M.bind, pure_eq, M.pure, getCl, setCl, emit,
        pruneEvents, hi, hs, hd, delR_noop]

theorem mirrorStatus_no_sync (ing : Ingress) (s : RState) (k : Kind)
    (h : Ev.sync k ∈ (mirrorStatus ing s).2.trace) : Ev.sync k ∈ s.trace := by
  unfold mirrorStatus at h
  rcases h1 : lookupL ing.labels OwningLabel with _ | v
  · simpa [h1] using h
  · rcases h2 : splitDD v with _ | ⟨a, t1⟩
    · simpa [h1, h2] using h
    · rcases t1 with _ | ⟨b, t2⟩
      · simpa [h1, h2] using h
      · rcases t2 with _ | ⟨c2, t3⟩
        · rcases h3 : getR s.cluster.ingresses (a, b) with _ | ow
          · simpa [h1, h2, h3] using h
          · simpa [h1, h2, h3] using h
        · simpa [h1, h2] using h

/-! ## Synchronizer idempotence lemmas -/

theorem mutateService_stable (req : ObjKey) (s2 : Service) :
    mutateService req (mutateService req s2) = mutateService req s2 := rfl

theorem mutateService_stable2 (req : ObjKey) (s2 : Service) :
    mutateService req { mutateService req s2 with creationTimestampIsZero := false } =
      { mutateService req s2 with creationTimestampIsZero := false } := rfl

theorem genLabels_keys_nodup (req : ObjKey) :
    ((genLabels req).map Prod.fst).Nodup := by
  simp [genLabels]
  decide


theorem lookupL_insertAll_ne (m ps : List (String × String)) (k : String)
    (h : ∀ p ∈ ps, p.1 ≠ k) : lookupL (insertAll m ps) k = lookupL m k := by
  induction ps generalizing m with
  | nil => rfl
  | cons p rest ih =>
    show lookupL (insertAll (insertL m p.1 p.2) rest) k = lookupL m k
    rw [ih (insertL m p.1 p.2) (fun q hq => h q (List.mem_cons_of_mem _ hq))]
    exact lookupL_insertL_ne _ _ _ _ (h p (List.mem_cons_self _ _))

theorem insertAll_idem (m ps : List (String × String))
    (hnd : (ps.map Prod.fst).Nodup) :
    insertAll (insertAll m ps) ps = insertAll m ps := by
  induction ps generalizing m with
  | nil => rfl
  | cons p rest ih =>
    simp only [List.map_cons, List.nodup_cons] at hnd
    have hk : ∀ q ∈ rest, q.1 ≠ p.1 := by
      intro q hq he
      exact hnd.1 (he ▸ List.mem_map_of_mem Prod.fst hq)
    have hl : lookupL (insertAll (insertL m p.1 p.2) rest) p.1 = some p.2 := by
      rw [lookupL_insertAll_ne _ _ _ hk, lookupL_insertL_self]
    show insertAll (insertL (insertAll (insertL m p.1 p.2) rest) p.1 p.2) rest
      = insertAll (insertL m p.1 p.2) rest
    rw [insertL_noop _ _ _ hl]
    exact ih _ hnd.2

theorem mutateChildIngress_stable (cfg : Config) (origIng : Ingress) (icfg : IngressConfigM)
    (req : ObjKey) (i : Ingress) :
    mutateChildIngress cfg origIng icfg req (mutateChildIngress cfg origIng icfg req i) =
      mutateChildIngress cfg origIng icfg req i := by
  unfold mutateChildIngress
  simp [insertAll_idem _ _ (genLabels_keys_nodup req)]

theorem mutateChildIngress_stable2 (cfg : Config) (origIng : Ingress) (icfg : IngressConfigM)
    (req : ObjKey) (i : Ingress) :
    mutateChildIngress cfg origIng icfg req
      { mutateChildIngress cfg origIng icfg req i with creationTimestampIsZero := false } =
      { mutateChildIngress cfg origIng icfg req i with creationTimestampIsZero := false } := by
  unfold mutateChildIngress
  simp [insertAll_idem _ _ (genLabels_keys_nodup req)]

theorem mutateDeployment_stable (cfg : Config) (target : String) (icfg : IngressConfigM)
    (req : ObjKey) (diff mp : Int) (srt ogp : Bool)
    (h1 : icfg.difficulty = some diff) (h2 : icfg.metricsPort = some mp)
    (h3 : icfg.serveRobotsTxt = some srt) (h4 : icfg.ogPassthrough = some ogp)
    (d d2 : Deployment) (h : mutateDeployment cfg target icfg req d = .ok d2) :
    mutateDeployment cfg target icfg req d2 = .ok d2 ∧
    mutateDeployment cfg target icfg req { d2 with creationTimestampIsZero := false } =
      .ok { d2 with creationTimestampIsZero := false } := by
  cases hc : d.creationTimestampIsZero <;>
    simp [mutateDeployment, h1, h2, h3, h4, hc] at h <;>
    subst h <;>
    constructor <;>
    simp [mutateDeployment, h1, h2, h3, h4, hc]


theorem recDep_pass (cfg : Config) (target : String) (icfg : IngressConfigM) (req : ObjKey)
    (diff mp : Int) (srt ogp : Bool)
    (h1 : icfg.difficulty = some diff) (h2 : icfg.metricsPort = some mp)
    (h3 : icfg.serveRobotsTxt = some srt) (h4 : icfg.ogPassthrough = some ogp)
    (s : RState) :
    ∃ D evs, reconcileDeployment cfg target icfg req s =
        (.ok (), { cluster := { s.cluster with deployments := D }, trace := s.trace ++ evs }) ∧
      (∀ c2 t, c2.deployments = D →
        reconcileDeployment cfg target icfg req { cluster := c2, trace := t } =
          (.ok (), { cluster := c2, trace := t ++ [Ev.sync .dep] })) ∧
      (∀ e ∈ evs, isResolveEv e = false ∧ isExtractEv e = false) ∧
      Ev.sync .dep ∈ evs := by
  rcases hg : getR s.cluster.deployments (cfg.ns, "ia-" ++ req.2) with _ | ex
  · have hex : ∃ d2, mutateDeployment cfg target icfg req
        { name := "ia-" ++ req.2, ns := cfg.ns } = .ok d2 := by
      simp [mutateDeployment, h1, h2, h3, h4]
    obtain ⟨d1, hmut⟩ := hex
    refine ⟨putR s.cluster.deployments (cfg.ns, "ia-" ++ req.2)
      { d1 with creationTimestampIsZero := false }, [Ev.sync .dep, Ev.created .dep], ?_, ?_, by decide, by decide⟩
    · simp [reconcileDeployment, bind_eq, pure_eq, M.bind, M.pure, getCl, setCl, emit,
            liftO, hg, hmut]
    · intro c2 t hc2
      have hst := (mutateDeployment_stable cfg target icfg req diff mp srt ogp
        h1 h2 h3 h4 _ _ hmut).2
      have hg2 : getR c2.deployments (cfg.ns, "ia-" ++ req.2) =
          some { d1 with creationTimestampIsZero := false } := by
        rw [hc2]
        exact getR_putR_self _ _ _
      simp [reconcileDeployment, bind_eq, pure_eq, M.bind, M.pure, getCl, setCl, emit,
            liftO, hg2, hst]
  · have hex : ∃ d2, mutateDeployment cfg target icfg req ex = .ok d2 := by
      simp [mutateDeployment, h1, h2, h3, h4]
    obtain ⟨d1, hmut⟩ := hex
    have hst := (mutateDeployment_stable cfg target icfg req diff mp srt ogp
      h1 h2 h3 h4 _ _ hmut).1
    by_cases he : d1 = ex
    · refine ⟨s.cluster.deployments, [Ev.sync .dep], ?_, ?_, by decide, by decide⟩
      · simp [reconcileDeployment, bind_eq, pure_eq, M.bind, M.pure, getCl, setCl, emit,
              liftO, hg, hmut, he]
      · intro c2 t hc2
        have hg2 : getR c2.deployments (cfg.ns, "ia-" ++ req.2) = some ex := by
          rw [hc2, hg]
        simp [reconcileDeployment, bind_eq, pure_eq, M.bind, M.pure, getCl, setCl, emit,
              liftO, hg2, hmut, he]
    · refine ⟨putR s.cluster.deployments (cfg.ns, "ia-" ++ req.2) d1,
        [Ev.sync .dep, Ev.updated .dep], ?_, ?_, by decide, by decide⟩
      · simp [reconcileDeployment, bind_eq, pure_eq, M.bind, M.pure, getCl, setCl, emit,
              liftO, hg, hmut, he]
      · intro c2 t hc2
        have hg2 : getR c2.deployments (cfg.ns, "ia-" ++ req.2) = some d1 := by
          rw [hc2]
          exact getR_putR_self _ _ _
        simp [reconcileDeployment, bind_eq, pure_eq, M.bind, M.pure, getCl, setCl, emit,
              liftO, hg2, hst]

theorem recSvc_pass (cfg : Config) (req : ObjKey) (s : RState) :
    ∃ S evs, reconcileService cfg req s =
        (.ok (), { cluster := { s.cluster with services := S }, trace := s.trace ++ evs }) ∧
      (∀ c2 t, c2.services = S →
        reconcileService cfg req { cluster := c2, trace := t } =
          (.ok (), { cluster := c2, trace := t ++ [Ev.sync .svc] })) ∧
      (∀ e ∈ evs, isResolveEv e = false ∧ isExtractEv e = false) ∧
      Ev.sync .svc ∈ evs := by
  rcases hg : getR s.cluster.services (cfg.ns, "ia-" ++ req.2) with _ | ex
  · refine ⟨putR s.cluster.services (cfg.ns, "ia-" ++ req.2)
      { mutateService req { name := "ia-" ++ req.2, ns := cfg.ns }
        with creationTimestampIsZero := false }, [Ev.sync .svc, Ev.created .svc], ?_, ?_, by decide, by decide⟩
    · simp [reconcileService, bind_eq, pure_eq, M.bind, M.pure, getCl, setCl, emit, hg]
    · intro c2 t hc2
      have hg2 : getR c2.services (cfg.ns, "ia-" ++ req.2) =
          some { mutateService req { name := "ia-" ++ req.2, ns := cfg.ns }
            with creationTimestampIsZero := false } := by
        rw [hc2]
        exact getR_putR_self _ _ _
      simp [reconcileService, bind_eq, pure_eq, M.bind, M.pure, getCl, setCl, emit, hg2,
            mutateService_stable2]
  · by_cases he : mutateService req ex = ex
    · refine ⟨s.cluster.services, [Ev.sync .svc], ?_, ?_, by decide, by decide⟩
      · simp [reconcileService, bind_eq, pure_eq, M.bind, M.pure, getCl, setCl, emit, hg, he]
      · intro c2 t hc2
        have hg2 : getR c2.services (cfg.ns, "ia-" ++ req.2) = some ex := by
          rw [hc2, hg]
        simp [reconcileService, bind_eq, pure_eq, M.bind, M.pure, getCl, setCl, emit, hg2, he]
    · refine ⟨putR s.cluster.services (cfg.ns, "ia-" ++ req.2) (mutateService req ex),
        [Ev.sync .svc, Ev.updated .svc], ?_, ?_, by decide, by decide⟩
      · simp [reconcileService, bind_eq, pure_eq, M.bind, M.pure, getCl, setCl, emit, hg, he]
      · intro c2 t hc2
        have hg2 : getR c2.services (cfg.ns, "ia-" ++ req.2) = some (mutateService req ex) := by
          rw [hc2]
          exact getR_putR_self _ _ _
        simp [reconcileService, bind_eq, pure_eq, M.bind, M.pure, getCl, setCl, emit, hg2,
              mutateService_stable]

theorem recIng_pass (cfg : Config) (origIng : Ingress) (icfg : IngressConfigM) (req : ObjKey)
    (s : RState) :
    ∃ I evs, reconcileChildIngress cfg origIng icfg req s =
        (.ok (), { cluster := { s.cluster with ingresses := I }, trace := s.trace ++ evs }) ∧
      (∀ c2 t, c2.ingresses = I →
        reconcileChildIngress cfg origIng icfg req { cluster := c2, trace := t } =
          (.ok (), { cluster := c2, trace := t ++ [Ev.sync .ing] })) ∧
      (∀ e ∈ evs, isResolveEv e = false ∧ isExtractEv e = false) ∧
      Ev.sync .ing ∈ evs := by
  rcases hg : getR s.cluster.ingresses (cfg.ns, "ia-" ++ req.2) with _ | ex
  · refine ⟨putR s.cluster.ingresses (cfg.ns, "ia-" ++ req.2)
      { mutateChildIngress cfg origIng icfg req { name := "ia-" ++ req.2, ns := cfg.ns }
        with creationTimestampIsZero := false }, [Ev.sync .ing, Ev.created .ing], ?_, ?_, by decide, by decide⟩
    · simp [reconcileChildIngress, bind_eq, pure_eq, M.bind, M.pure, getCl, setCl, emit, hg]
    · intro c2 t hc2
      have hg2 : getR c2.ingresses (cfg.ns, "ia-" ++ req.2) =
          some { mutateChildIngress cfg origIng icfg req { name := "ia-" ++ req.2, ns := cfg.ns }
            with creationTimestampIsZero := false } := by
        rw [hc2]
        exact getR_putR_self _ _ _
      simp [reconcileChildIngress, bind_eq, pure_eq, M.bind, M.pure, getCl, setCl, emit, hg2,
            mutateChildIngress_stable2]
  · by_cases he : mutateChildIngress cfg origIng icfg req ex = ex
    · refine ⟨s.cluster.ingresses, [Ev.sync .ing], ?_, ?_, by decide, by decide⟩
      · simp [reconcileChildIngress, bind_eq, pure_eq, M.bind, M.pure, getCl, setCl, emit,
              hg, he]
      · intro c2 t hc2
        have hg2 : getR c2.ingresses (cfg.ns, "ia-" ++ req.2) = some ex := by
          rw [hc2, hg]
        simp [reconcileChildIngress, bind_eq, pure_eq, M.bind, M.pure, getCl, setCl, emit,
              hg2, he]
    · refine ⟨putR s.cluster.ingresses (cfg.ns, "ia-" ++ req.2)
        (mutateChildIngress cfg origIng icfg req ex), [Ev.sync .ing, Ev.updated .ing], ?_, ?_, by decide, by decide⟩
      · simp [reconcileChildIngress, bind_eq, pure_eq, M.bind, M.pure, getCl, setCl, emit,
              hg, he]
      · intro c2 t hc2
        have hg2 : getR c2.ingresses (cfg.ns, "ia-" ++ req.2) =
            some (mutateChildIngress cfg origIng icfg req ex) := by
          rw [hc2]
          exact getR_putR_self _ _ _
        simp [reconcileChildIngress, bind_eq, pure_eq, M.bind, M.pure, getCl, setCl, emit,
              hg2, mutateChildIngress_stable]

theorem mutateDeploymentOrd_canonical (cfg : Config) (target : String) (icfg : IngressConfigM)
    (req : ObjKey) (diff mp : Int) (srt ogp : Bool)
    (h1 : icfg.difficulty = some diff) (h2 : icfg.metricsPort = some mp)
    (h3 : icfg.serveRobotsTxt = some srt) (h4 : icfg.ogPassthrough = some ogp)
    (d : Deployment) :
    mutateDeploymentOrd cfg target icfg req (depEnvMap cfg target diff mp srt ogp) d =
      mutateDeployment cfg target icfg req d := by
  simp [mutateDeploymentOrd, mutateDeployment, depEnvMap, h1, h2, h3, h4]

theorem withEnv_self (d : Deployment) (e : List EnvVar) (h : envsOf d = [e]) :
    withEnv d e = d := by
  rcases d with ⟨n, nsp, lb, cts, ⟨sel, rep, st, ⟨tl, ta, tcs, tv⟩⟩⟩
  rcases tcs with _ | ⟨c, rest⟩
  · simp [envsOf] at h
  · rcases rest with _ | ⟨c2, r2⟩
    · rcases c with ⟨cn, ci, ce, cef, cp, crp, cvm, csc⟩
      simp [envsOf] at h
      subst h
      simp [withEnv]
    · simp [envsOf] at h

theorem mutateDeploymentOrd_stable (cfg : Config) (target : String) (icfg : IngressConfigM)
    (req : ObjKey) (diff mp : Int) (srt ogp : Bool)
    (h1 : icfg.difficulty = some diff) (h2 : icfg.metricsPort = some mp)
    (h3 : icfg.serveRobotsTxt = some srt) (h4 : icfg.ogPassthrough = some ogp)
    (L : List (String × String)) (d d2 : Deployment)
    (h : mutateDeploymentOrd cfg target icfg req L d = .ok d2) :
    mutateDeploymentOrd cfg target icfg req L d2 = .ok d2 ∧
    mutateDeploymentOrd cfg target icfg req L { d2 with creationTimestampIsZero := false } =
      .ok { d2 with creationTimestampIsZero := false } := by
  cases hc : d.creationTimestampIsZero <;>
    simp [mutateDeploymentOrd, h1, h2, h3, h4, hc] at h <;>
    subst h <;>
    constructor <;>
    simp [mutateDeploymentOrd, h1, h2, h3, h4, hc]

theorem mutateDeploymentOrd_env_shift (cfg : Config) (target : String) (icfg : IngressConfigM)
    (req : ObjKey) (diff mp : Int) (srt ogp : Bool)
    (h1 : icfg.difficulty = some diff) (h2 : icfg.metricsPort = some mp)
    (h3 : icfg.serveRobotsTxt = some srt) (h4 : icfg.ogPassthrough = some ogp)
    (L1 L2 : List (String × String)) (d d2 : Deployment)
    (h : mutateDeploymentOrd cfg target icfg req L1 d = .ok d2) :
    mutateDeploymentOrd cfg target icfg req L2 d =
      .ok (withEnv d2 (L2.map (fun kv => EnvVar.mk kv.1 kv.2))) := by
  cases hc : d.creationTimestampIsZero <;>
    simp [mutateDeploymentOrd, h1, h2, h3, h4, hc] at h <;>
    subst h <;>
    simp [mutateDeploymentOrd, withEnv, h1, h2, h3, h4, hc]

theorem recDepOrd_pass (cfg : Config) (target : String) (icfg : IngressConfigM) (req : ObjKey)
    (diff mp : Int) (srt ogp : Bool)
    (h1 : icfg.difficulty = some diff) (h2 : icfg.metricsPort = some mp)
    (h3 : icfg.serveRobotsTxt = some srt) (h4 : icfg.ogPassthrough = some ogp)
    (L : List (String × String)) (s : RState) :
    ∃ D evs d1, reconcileDeploymentOrd cfg target icfg req L s =
        (.ok (), { cluster := { s.cluster with deployments := D }, trace := s.trace ++ evs }) ∧
      getR D (cfg.ns, "ia-" ++ req.2) = some d1 ∧
      mutateDeploymentOrd cfg target icfg req L d1 = .ok d1 ∧
      envsOf d1 = [L.map (fun kv => EnvVar.mk kv.1 kv.2)] := by
  rcases hg : getR s.cluster.deployments (cfg.ns, "ia-" ++ req.2) with _ | ex
  · have hex : ∃ d2, mutateDeploymentOrd cfg target icfg req L
        { name := "ia-" ++ req.2, ns := cfg.ns } = .ok d2 := by
      simp [mutateDeploymentOrd, h1, h2, h3, h4]
    obtain ⟨dd, hmut⟩ := hex
    have hst := (mutateDeploymentOrd_stable cfg target icfg req diff mp srt ogp
      h1 h2 h3 h4 L _ _ hmut).2
    have henv : envsOf { dd with creationTimestampIsZero := false } =
        [L.map (fun kv => EnvVar.mk kv.1 kv.2)] := by
      simp [mutateDeploymentOrd, h1, h2, h3, h4] at hmut
      subst hmut
      simp [envsOf]
    refine ⟨putR s.cluster.deployments (cfg.ns, "ia-" ++ req.2)
      { dd with creationTimestampIsZero := false }, [Ev.sync .dep, Ev.created .dep],
      { dd with creationTimestampIsZero := false }, ?_, getR_putR_self _ _ _, hst, henv⟩
    simp [reconcileDeploymentOrd, bind_eq, pure_eq, M.bind, M.pure, getCl, setCl, emit,
          liftO, hg, hmut]
  · have hex : ∃ d2, mutateDeploymentOrd cfg target icfg req L ex = .ok d2 := by
      simp [mutateDeploymentOrd, h1, h2, h3, h4]
    obtain ⟨dd, hmut⟩ := hex
    have hst := (mutateDeploymentOrd_stable cfg target icfg req diff mp srt ogp
      h1 h2 h3 h4 L _ _ hmut).1
    have henv : envsOf dd = [L.map (fun kv => EnvVar.mk kv.1 kv.2)] := by
      cases hc : ex.creationTimestampIsZero <;>
        simp [mutateDeploymentOrd, h1, h2, h3, h4, hc] at hmut <;>
        subst hmut <;>
        simp [envsOf]
    by_cases he : dd = ex
    · refine ⟨s.cluster.deployments, [Ev.sync .dep], ex, ?_, hg, he ▸ hmut, he ▸ henv⟩
      simp [reconcileDeploymentOrd, bind_eq, pure_eq, M.bind, M.pure, getCl, setCl, emit,
            liftO, hg, hmut, he]
    · refine ⟨putR s.cluster.deployments (cfg.ns, "ia-" ++ req.2) dd,
        [Ev.sync .dep, Ev.updated .dep], dd, ?_, getR_putR_self _ _ _, hst, henv⟩
      simp [reconcileDeploymentOrd, bind_eq, pure_eq, M.bind, M.pure, getCl, setCl, emit,
            liftO, hg, hmut, he]

theorem getTarget_trace (ns : String) (isb : Option IngressServiceBackend) (s : RState)
    (out : Outcome String) (s1 : RState) (h : getTargetFromService ns isb s = (out, s1)) :
    s1.cluster = s.cluster ∧
    (s1.trace = s.trace ++ [Ev.resolve] ∨
     ∃ k, s1.trace = s.trace ++ [Ev.resolve, Ev.svcLookup k]) := by
  unfold getTargetFromService at h
  rcases isb with _ | b
  · rw [Prod.mk.injEq] at h
    rw [← h.2]
    exact ⟨rfl, Or.inl rfl⟩
  · by_cases hn : b.port.name = ""
    · simp only [hn, if_pos] at h
      rw [Prod.mk.injEq] at h
      rw [← h.2]
      exact ⟨rfl, Or.inl rfl⟩
    · simp only [hn, if_neg] at h
      rcases hg : getR s.cluster.services (ns, b.name) with _ | svc
      · rw [hg] at h
        rw [Prod.mk.injEq] at h
        rw [← h.2]
        exact ⟨rfl, Or.inr ⟨(ns, b.name), by simp⟩⟩
      · rw [hg] at h
        by_cases hz : (match svc.spec.ports.find? (fun p => p.name = b.port.name) with
            | some p => p.port
            | none => b.port.number) = 0
        · simp only [hz, if_pos] at h
          rw [Prod.mk.injEq] at h
          rw [← h.2]
          exact ⟨rfl, Or.inr ⟨(ns, b.name), by simp⟩⟩
        · simp only [hz, if_neg] at h
          rw [Prod.mk.injEq] at h
          rw [← h.2]
          exact ⟨rfl, Or.inr ⟨(ns, b.name), by simp⟩⟩

theorem applyDefaultsM_isSome (x : IngressConfigM) :
    (applyDefaultsM x).difficulty.isSome = true ∧
    (applyDefaultsM x).metricsPort.isSome = true ∧
    (applyDefaultsM x).serveRobotsTxt.isSome = true ∧
    (applyDefaultsM x).ogPassthrough.isSome = true := by
  unfold applyDefaultsM
  rcases x with ⟨d, m, srt, o, ic, ecm, esec⟩
  rcases d <;> rcases m <;> rcases srt <;> rcases o <;> simp


theorem GetIngressConfigM_ok_shape (ing : Option Ingress) (i : IngressConfigM)
    (h : GetIngressConfigM ing = .ok i) : ∃ x, i = applyDefaultsM x := by
  rcases ing with _ | iv
  · refine ⟨{}, ?_⟩
    simp only [GetIngressConfigM] at h
    simp at h
    exact h.symm
  · simp only [GetIngressConfigM] at h
    rcases hf : foldAnnKeysM iv.annotations AnnotationKeysM {} with cfg2 | ⟨t, m⟩ | m <;>
      rw [hf] at h <;> simp at h
    exact ⟨cfg2, h.symm⟩



/-! ## Claim C8: numeric-port backends resolve without a service lookup -/

/-- C8: for every backend reference whose port is given numerically
(empty port name), the Backend Target Resolver performs no service
lookup against the store and returns successfully a URL-shaped string
embedding the service name, the source namespace, and that numeric
port: the only recorded action is entering the resolver, and the
cluster is untouched. -/
theorem c8_numeric_port_no_lookup (ns : String) (isb : IngressServiceBackend) (s : RState)
    (h : isb.port.name = "") :
    getTargetFromService ns (some isb) s =
      (.ok ("http://" ++ isb.name ++ "." ++ ns ++ ".svc.cluster.local:"
            ++ toString isb.port.number),
       { s with trace := s.trace ++ [Ev.resolve] }) ∧
    (∀ k, Ev.svcLookup k ∈ (getTargetFromService ns (some isb) s).2.trace →
      Ev.svcLookup k ∈ s.trace) := by
  constructor
  · simp [getTargetFromService, h]
  · intro k hk
    simp only [getTargetFromService, h, if_pos] at hk
    rcases List.mem_append.mp hk with h1 | h1
    · exact h1
    · simp at h1

/-- Witness for C8 at a concrete numeric-port backend. -/
theorem c8_witness :
    demoNumericBackend.port.name = "" ∧
    getTargetFromService "shop" (some demoNumericBackend) {} =
      (.ok ("http://" ++ demoNumericBackend.name ++ "." ++ "shop" ++ ".svc.cluster.local:"
            ++ toString demoNumericBackend.port.number),
       { ({} : RState) with trace := ([] : List Ev) ++ [Ev.resolve] }) :=
  ⟨rfl, (c8_numeric_port_no_lookup "shop" demoNumericBackend {} rfl).1⟩

/-! ## Claim C10: nil default-backend service is dereferenced unguarded -/

/-- C10: for every claimed, finalized source ingress whose
DefaultBackend is present but whose DefaultBackend.Service field is
nil, Reconcile passes the nil backend reference to the resolver, which
dereferences it unconditionally: the pass ends in a nil-pointer panic
(after entering the resolver), not in an error result. -/
theorem c10_nil_default_backend_panics (cfg : Config) (c : Cluster) (req : ObjKey)
    (orig : Ingress) (db : IngressBackend)
    (hget : getR c.ingresses req = some orig)
    (hclass : orig.spec.ingressClassName = some cfg.ingressClassName)
    (hmanaged : lookupL orig.labels ManagedLabel ≠ some "true")
    (hdts : orig.deletionTimestampIsZero = true)
    (hfin : FinalizerKey ∈ orig.finalizers)
    (hdb : orig.spec.defaultBackend = some db)
    (hsvc : db.service = none) :
    reconcile cfg req { cluster := c, trace := [] } =
      (.panicked "invalid memory address or nil pointer dereference",
       { cluster := c, trace := [Ev.resolve] }) := by
  simp [reconcile, bind_eq, pure_eq, M.bind, M.pure, getCl, setCl, emit, liftO, throwE,
        panicE, selectBackend, getTargetFromService, notOurs, hget, hclass, hmanaged,
        hdts, hfin, hdb, hsvc]

/-- Witness for C10 at a concrete source ingress whose default backend
has a nil service reference. -/
theorem c10_witness :
    getR demoNilCl.ingresses ("shop", "web") = some demoNilService ∧
    demoNilService.spec.ingressClassName = some democfg.ingressClassName ∧
    lookupL demoNilService.labels ManagedLabel ≠ some "true" ∧
    demoNilService.deletionTimestampIsZero = true ∧
    FinalizerKey ∈ demoNilService.finalizers ∧
    demoNilService.spec.defaultBackend = some { service := none } ∧
    reconcile democfg ("shop", "web") { cluster := demoNilCl, trace := [] } =
      (.panicked "invalid memory address or nil pointer dereference",
       { cluster := demoNilCl, trace := [Ev.resolve] }) :=
  ⟨by decide, rfl, by decide, rfl, by decide, rfl,
   c10_nil_default_backend_panics democfg demoNilCl ("shop", "web") demoNilService
     { service := none } (by decide) rfl (by decide) rfl (by decide) rfl rfl⟩

/-! ## Claim C5: malformed owner-label values in the Status Mirror -/

/-- C5 counterexample: on a generated resource whose owner-label value
`abc` does not split into two parts, the Status Mirror fails with an
ordinary error that is not marked terminal, contradicting the claim
that the error is permanent/non-retriable. -/
theorem c5_counterexample :
    mirrorStatus badOwnerIng {} =
      (.fail false "failed to determine owner from owning label value \"abc\"", {}) ∧
    Outcome.isTerminalFail (mirrorStatus badOwnerIng {}).1 = false ∧
    Outcome.isRetriableFail (mirrorStatus badOwnerIng {}).1 = true := by
  refine ⟨by decide, by decide, by decide⟩

/-- C5 (amended): when the Status Mirror is given a generated resource
whose owner-label value does not split into exactly two parts on the
`--` separator, it fails with an ordinary retriable error (a plain
formatted error, not marked as a terminal/non-retriable one), naming
the offending label value, and leaves the state untouched. -/
theorem c5_malformed_owner_label_plain_error (ing : Ingress) (s : RState) (v : String)
    (hlbl : lookupL ing.labels OwningLabel = some v)
    (hsplit : (splitDD v).length ≠ 2) :
    mirrorStatus ing s =
      (.fail false ("failed to determine owner from owning label value \"" ++ v ++ "\""), s) ∧
    Outcome.isTerminalFail (mirrorStatus ing s).1 = false := by
  have hmain : mirrorStatus ing s =
      (.fail false ("failed to determine owner from owning label value \"" ++ v ++ "\""), s) := by
    unfold mirrorStatus
    cases h : splitDD v with
    | nil => simp [hlbl, h]
    | cons a t1 =>
      cases t1 with
      | nil => simp [hlbl, h]
      | cons b t2 =>
        cases t2 with
        | nil => exact absurd (by simp [h]) hsplit
        | cons e t3 => simp [hlbl, h]
  exact ⟨hmain, by rw [hmain]; rfl⟩

/-- Witness for the amended C5 at the concrete malformed value `abc`. -/
theorem c5_witness :
    lookupL badOwnerIng.labels OwningLabel = some "abc" ∧
    (splitDD "abc").length ≠ 2 ∧
    (mirrorStatus badOwnerIng {} =
      (.fail false ("failed to determine owner from owning label value \"" ++ "abc" ++ "\""), {}) ∧
     Outcome.isTerminalFail (mirrorStatus badOwnerIng ({} : RState)).1 = false) :=
  ⟨by decide, by decide,
   c5_malformed_owner_label_plain_error badOwnerIng {} "abc" (by decide) (by decide)⟩

/-! ## Claim C9: the Status Mirror changes nothing but the status -/

/-- C9: when the Status Mirror updates an existing owning source
ingress, it copies the generated resource's status verbatim onto the
source resource and modifies nothing else: the stored owner keeps its
spec, labels, annotations, finalizers, name, namespace and deletion
state, only its status becomes the generated resource's status;
every other ingress, and the service and deployment stores, are
untouched, and the pass succeeds. -/
theorem c9_status_mirror_frame (ing : Ingress) (s : RState) (nsp nm : String) (v : String)
    (owning : Ingress)
    (hlbl : lookupL ing.labels OwningLabel = some v)
    (hsplit : splitDD v = [nsp, nm])
    (hget : getR s.cluster.ingresses (nsp, nm) = some owning) :
    mirrorStatus ing s =
      (.ok {},
       { cluster := { s.cluster with
           ingresses := putR s.cluster.ingresses (nsp, nm) { owning with status := ing.status } }
         trace := s.trace ++ [Ev.statusPatched (nsp, nm)] }) ∧
    ({ owning with status := ing.status } : Ingress).status = ing.status ∧
    ({ owning with status := ing.status } : Ingress).spec = owning.spec ∧
    ({ owning with status := ing.status } : Ingress).labels = owning.labels ∧
    ({ owning with status := ing.status } : Ingress).annotations = owning.annotations ∧
    ({ owning with status := ing.status } : Ingress).finalizers = owning.finalizers ∧
    ({ owning with status := ing.status } : Ingress).name = owning.name ∧
    ({ owning with status := ing.status } : Ingress).ns = owning.ns ∧
    ({ owning with status := ing.status } : Ingress).deletionTimestampIsZero
      = owning.deletionTimestampIsZero ∧
    (∀ k, k ≠ (nsp, nm) →
      getR (putR s.cluster.ingresses (nsp, nm) { owning with status := ing.status }) k
        = getR s.cluster.ingresses k) := by
  refine ⟨?_, rfl, rfl, rfl, rfl, rfl, rfl, rfl, rfl, ?_⟩
  · unfold mirrorStatus
    simp [hlbl, hsplit, hget]
  · intro k hk
    exact getR_putR_ne _ _ _ _ (fun hh => hk hh.symm)

/-! ## Claims C6 and C7: directive extraction -/

/-- C6 counterexample: extraction on an annotation-free ingress
succeeds but leaves the ingress-class field unset (nil), so not every
field of the returned directive configuration is non-null; the
extractor under src moreover has no metadata-passthrough field to
default. -/
theorem c6_counterexample :
    GetIngressConfigFromIngress (some demoNoAnn) =
      .ok { difficulty := some 4, serveRobotsTxt := some true, ingressClass := none } ∧
    ({ difficulty := some 4, serveRobotsTxt := some true,
       ingressClass := none } : IngressConfig).ingressClass.isSome = false :=
  ⟨by decide, rfl⟩

/-- C6 (amended): for every input ingress (including nil or
annotation-free ones) on which extraction succeeds, the defaulted
fields are non-null — absence of the difficulty directive yields
difficulty 4 and absence of the serve-robots-txt directive yields
true — while the ingress-class field (the only other field of the
extractor under src) remains unset when its annotation is absent. -/
theorem c6_extraction_defaults (ing : Option Ingress) (cfg : IngressConfig)
    (hok : GetIngressConfigFromIngress ing = .ok cfg) :
    cfg.difficulty.isSome = true ∧
    cfg.serveRobotsTxt.isSome = true ∧
    (lookupL (annsOf ing) AnnotationKeyDifficulty = none → cfg.difficulty = some 4) ∧
    (lookupL (annsOf ing) AnnotationKeyServeRobotsTxt = none → cfg.serveRobotsTxt = some true) ∧
    (lookupL (annsOf ing) AnnotationKeyIngressClass = none → cfg.ingressClass = none) := by
  cases ing with
  | none =>
    simp [GetIngressConfigFromIngress, applyDefaults] at hok
    simp [annsOf, lookupL, ← hok]
  | some i =>
    rcases h1 : lookupL i.annotations AnnotationKeyDifficulty with _ | v1
    · rcases h2 : lookupL i.annotations AnnotationKeyServeRobotsTxt with _ | v2
      · rcases h3 : lookupL i.annotations AnnotationKeyIngressClass with _ | v3
        · simp +decide [GetIngressConfigFromIngress, AnnotationKeys, foldAnnKeys,
                        applyAnnKey, applyDefaults, h1, h2, h3] at hok
          simp [annsOf, h1, h2, h3, ← hok]
        · simp +decide [GetIngressConfigFromIngress, AnnotationKeys, foldAnnKeys,
                        applyAnnKey, applyDefaults, h1, h2, h3] at hok
          simp [annsOf, h1, h2, h3, ← hok]
      · rcases hp2 : parseBool v2 with _ | b2
        · simp +decide [GetIngressConfigFromIngress, AnnotationKeys, foldAnnKeys,
                        applyAnnKey, applyDefaults, h1, h2, hp2] at hok
        · rcases h3 : lookupL i.annotations AnnotationKeyIngressClass with _ | v3
          · simp +decide [GetIngressConfigFromIngress, AnnotationKeys, foldAnnKeys,
                          applyAnnKey, applyDefaults, h1, h2, hp2, h3] at hok
            simp [annsOf, h1, h2, h3, ← hok]
          · simp +decide [GetIngressConfigFromIngress, AnnotationKeys, foldAnnKeys,
                          applyAnnKey, applyDefaults, h1, h2, hp2, h3] at hok
            simp [annsOf, h1, h2, h3, ← hok]
    · rcases hp1 : atoi v1 with _ | d1
      · simp +decide [GetIngressConfigFromIngress, AnnotationKeys, foldAnnKeys,
                      applyAnnKey, applyDefaults, h1, hp1] at hok
      · rcases h2 : lookupL i.annotations AnnotationKeyServeRobotsTxt with _ | v2
        · rcases h3 : lookupL i.annotations AnnotationKeyIngressClass with _ | v3
          · simp +decide [GetIngressConfigFromIngress, AnnotationKeys, foldAnnKeys,
                          applyAnnKey, applyDefaults, h1, hp1, h2, h3] at hok
            simp [annsOf, h1, h2, h3, ← hok]
          · simp +decide [GetIngressConfigFromIngress, AnnotationKeys, foldAnnKeys,
                          applyAnnKey, applyDefaults, h1, hp1, h2, h3] at hok
            simp [annsOf, h1, h2, h3, ← hok]
        · rcases hp2 : parseBool v2 with _ | b2
          · simp +decide [GetIngressConfigFromIngress, AnnotationKeys, foldAnnKeys,
                          applyAnnKey, applyDefaults, h1, hp1, h2, hp2] at hok
          · rcases h3 : lookupL i.annotations AnnotationKeyIngressClass with _ | v3
            · simp +decide [GetIngressConfigFromIngress, AnnotationKeys, foldAnnKeys,
                            applyAnnKey, applyDefaults, h1, hp1, h2, hp2, h3] at hok
              simp [annsOf, h1, h2, h3, ← hok]
            · simp +decide [GetIngressConfigFromIngress, AnnotationKeys, foldAnnKeys,
                            applyAnnKey, applyDefaults, h1, hp1, h2, hp2, h3] at hok
              simp [annsOf, h1, h2, h3, ← hok]

/-- Witness for the amended C6 at the annotation-free demo ingress. -/
theorem c6_witness :
    GetIngressConfigFromIngress (some demoNoAnn) =
      .ok { difficulty := some 4, serveRobotsTxt := some true, ingressClass := none } ∧
    ({ difficulty := some 4, serveRobotsTxt := some true,
       ingressClass := none } : IngressConfig).difficulty.isSome = true :=
  ⟨by decide,
   (c6_extraction_defaults (some demoNoAnn)
     { difficulty := some 4, serveRobotsTxt := some true, ingressClass := none }
     (by decide)).1⟩

/-- C7: if a recognized directive annotation is present with a value
that fails to parse as its declared type, extraction fails as a whole
with an error naming the offending directive, and returns no
configuration value (the failure outcome carries no partial result):
an unparsable difficulty always aborts with the difficulty error, and
an unparsable serve-robots-txt aborts with its error whenever the
difficulty directive (processed first) is absent or parses. -/
theorem c7_parse_failure_aborts (ing : Ingress) :
    (∀ v, lookupL ing.annotations AnnotationKeyDifficulty = some v → atoi v = none →
      GetIngressConfigFromIngress (some ing) =
        .fail false ("failed to parse annotation " ++ AnnotationKeyDifficulty
          ++ " value \"" ++ v ++ "\" as int")) ∧
    (∀ v, lookupL ing.annotations AnnotationKeyServeRobotsTxt = some v → parseBool v = none →
      (∀ dv, lookupL ing.annotations AnnotationKeyDifficulty = some dv →
        (atoi dv).isSome = true) →
      GetIngressConfigFromIngress (some ing) =
        .fail false ("failed to parse annotation " ++ AnnotationKeyServeRobotsTxt
          ++ " value \"" ++ v ++ "\" as bool")) := by
  constructor
  · intro v h1 hp1
    simp +decide [GetIngressConfigFromIngress, foldAnnKeys, applyAnnKey, AnnotationKeys,
                  h1, hp1]
  · intro v h2 hp2 hd
    rcases h1 : lookupL ing.annotations AnnotationKeyDifficulty with _ | dv
    · simp +decide [GetIngressConfigFromIngress, foldAnnKeys, applyAnnKey, AnnotationKeys,
                    h1, h2, hp2]
    · rcases hp1 : atoi dv with _ | d
      · have := hd dv h1
        simp [hp1] at this
      · simp +decide [GetIngressConfigFromIngress, foldAnnKeys, applyAnnKey, AnnotationKeys,
                      h1, h2, hp1, hp2]

/-- Witness for C7: unparsable difficulty `abc` and unparsable
serve-robots-txt `bfalse` each abort extraction with the matching
error. -/
theorem c7_witness :
    lookupL demoBadBoth.annotations AnnotationKeyDifficulty = some "abc" ∧
    atoi "abc" = none ∧
    GetIngressConfigFromIngress (some demoBadBoth) =
      .fail false ("failed to parse annotation " ++ AnnotationKeyDifficulty
        ++ " value \"" ++ "abc" ++ "\" as int") ∧
    lookupL demoBadRobots.annotations AnnotationKeyServeRobotsTxt = some "bfalse" ∧
    parseBool "bfalse" = none ∧
    GetIngressConfigFromIngress (some demoBadRobots) =
      .fail false ("failed to parse annotation " ++ AnnotationKeyServeRobotsTxt
        ++ " value \"" ++ "bfalse" ++ "\" as bool") :=
  ⟨by decide, by decide,
   (c7_parse_failure_aborts demoBadBoth).1 "abc" (by decide) (by decide),
   by decide, by decide,
   (c7_parse_failure_aborts demoBadRobots).2 "bfalse" (by decide) (by decide)
     (by intro dv hdv; simp +decide [demoBadRobots, lookupL] at hdv)⟩

/-! ## Claim C3: finalizer-gated deletion -/

/-- C2: a claimed source ingress without the engine's finalizer and
without a deletion marker gains the finalizer and an immediate requeue,
with no triad synchronization in that pass (the only recorded action is
the finalizer patch, and the service/deployment stores are untouched);
and in any pass whatsoever, a triad-synchronization event can only
occur when the fetched source already carried the finalizer. -/
theorem c2_finalizer_attach_gates_sync :
    (∀ cfg c req orig,
      getR c.ingresses req = some orig →
      orig.spec.ingressClassName = some cfg.ingressClassName →
      lookupL orig.labels ManagedLabel ≠ some "true" →
      orig.deletionTimestampIsZero = true →
      FinalizerKey ∉ orig.finalizers →
      reconcile cfg req { cluster := c, trace := [] } =
        (.ok { requeue := true },
         { cluster := { c with ingresses := putR c.ingresses req { orig with finalizers := orig.finalizers ++ [FinalizerKey] } }
           trace := [Ev.addedFinalizer req] }) ∧
      (∀ k, Ev.sync k ∉ (reconcile cfg req { cluster := c, trace := [] }).2.trace)) ∧
    (∀ cfg c req k,
      Ev.sync k ∈ (reconcile cfg req { cluster := c, trace := [] }).2.trace →
      ∃ orig, getR c.ingresses req = some orig ∧ FinalizerKey ∈ orig.finalizers) := by
  constructor
  · intro cfg c req orig hget hclass hmanaged hdts hfin
    have hred : reconcile cfg req { cluster := c, trace := [] } =
        (.ok { requeue := true },
         { cluster := { c with ingresses := putR c.ingresses req { orig with finalizers := orig.finalizers ++ [FinalizerKey] } }
           trace := [Ev.addedFinalizer req] }) := by
      simp [reconcile, bind_eq, pure_eq, M.bind, M.pure, getCl, setCl, emit, notOurs,
            hget, hclass, hmanaged, hdts, hfin]
    refine ⟨hred, ?_⟩
    intro k
    rw [hred]
    simp
  · intro cfg c req k h
    rcases hget : getR c.ingresses req with _ | orig
    · simp [reconcile, bind_eq, M.bind, pure_eq, M.pure, getCl, hget] at h
    · by_cases hclass : notOurs cfg orig = true
      · by_cases hm : lookupL orig.labels ManagedLabel = some "true"
        · have hh : reconcile cfg req { cluster := c, trace := [] } =
              mirrorStatus orig { cluster := c, trace := [] } := by
            simp [reconcile, bind_eq, M.bind, pure_eq, M.pure, getCl, hget, hclass, hm]
          rw [hh] at h
          have h2 := mirrorStatus_no_sync _ _ _ h
          simp at h2
        · simp [reconcile, bind_eq, M.bind, pure_eq, M.pure, getCl, hget, hclass, hm] at h
      · have hclass2 : notOurs cfg orig = false := by
          simpa using hclass
        by_cases hm : lookupL orig.labels ManagedLabel = some "true"
        · simp [reconcile, bind_eq, M.bind, pure_eq, M.pure, getCl, throwE,
                hget, hclass2, hm] at h
        · by_cases hdel : orig.deletionTimestampIsZero = false
          · have hrun := deleteResources_run cfg req.2 { cluster := c, trace := [] }
            rcases hi : getR c.ingresses (cfg.ns, "ia-" ++ req.2) with _ | xi <;>
            rcases hs : getR c.services (cfg.ns, "ia-" ++ req.2) with _ | xs2 <;>
            rcases hd : getR c.deployments (cfg.ns, "ia-" ++ req.2) with _ | xd <;>
            by_cases hf : FinalizerKey ∈ orig.finalizers <;>
            simp [reconcile, bind_eq, pure_eq, M.bind, M.pure, getCl, setCl, emit,
                  hget, hclass2, hm, hdel, hf, hrun, pruneEvents, hi, hs, hd] at h
          · by_cases hf : FinalizerKey ∈ orig.finalizers
            · exact ⟨orig, rfl, hf⟩
            · simp [reconcile, bind_eq, pure_eq, M.bind, M.pure, getCl, setCl, emit,
                    hget, hclass2, hm, hdel, hf] at h

/-- Witness for C2: the demo source without the finalizer gains it with
an immediate requeue and no triad synchronization; and a concrete
sync-bearing pass (the finalized demo source) indeed carried the
finalizer. -/
theorem c2_witness :
    (getR ({ ingresses := [(("shop", "web"), demoNoFin)] } : Cluster).ingresses ("shop", "web")
       = some demoNoFin ∧
     demoNoFin.spec.ingressClassName = some democfg.ingressClassName ∧
     lookupL demoNoFin.labels ManagedLabel ≠ some "true" ∧
     demoNoFin.deletionTimestampIsZero = true ∧
     FinalizerKey ∉ demoNoFin.finalizers ∧
     (reconcile democfg ("shop", "web")
        { cluster := { ingresses := [(("shop", "web"), demoNoFin)] }, trace := [] } =
       (.ok { requeue := true },
        { cluster := { ({ ingresses := [(("shop", "web"), demoNoFin)] } : Cluster) with ingresses := putR [(("shop", "web"), demoNoFin)] ("shop", "web") { demoNoFin with finalizers := demoNoFin.finalizers ++ [FinalizerKey] } }
          trace := [Ev.addedFinalizer ("shop", "web")] }) ∧
      (∀ k, Ev.sync k ∉ (reconcile democfg ("shop", "web")
        { cluster := { ingresses := [(("shop", "web"), demoNoFin)] }, trace := [] }).2.trace))) ∧
    (Ev.sync .dep ∈ (reconcile democfg ("shop", "web")
       { cluster := democl, trace := [] }).2.trace ∧
     ∃ orig, getR democl.ingresses ("shop", "web") = some orig ∧
       FinalizerKey ∈ orig.finalizers) :=
  ⟨⟨by decide, rfl, by decide, rfl, by decide,
    c2_finalizer_attach_gates_sync.1 democfg
      { ingresses := [(("shop", "web"), demoNoFin)] } ("shop", "web") demoNoFin
      (by decide) rfl (by decide) rfl (by decide)⟩,
   by decide,
   c2_finalizer_attach_gates_sync.2 democfg democl ("shop", "web") .dep (by decide)⟩

/-- Witness for C9: mirroring the demo child's status onto `demoWeb`. -/
theorem c9_witness :
    lookupL demoChild.labels OwningLabel = some "shop--web" ∧
    splitDD "shop--web" = ["shop", "web"] ∧
    getR ({ cluster := democl, trace := [] } : RState).cluster.ingresses ("shop", "web")
      = some demoWeb ∧
    mirrorStatus demoChild { cluster := democl, trace := [] } =
      (.ok {},
       { cluster := { democl with
           ingresses := putR democl.ingresses ("shop", "web")
             { demoWeb with status := demoChild.status } }
         trace := ([] : List Ev) ++ [Ev.statusPatched ("shop", "web")] }) :=
  ⟨by decide, by decide, by decide,
   (c9_status_mirror_frame demoChild { cluster := democl, trace := [] } "shop" "web"
     "shop--web" demoWeb (by decide) (by decide) (by decide)).1⟩


/-! ## Claim C1: idempotence of the Managed Resource Synchronizer -/

/-- C1 (counterexample to the claim as stated): the synchronizer is not
idempotent on the nose, because the deployment's container env slice is
built by ranging over a Go map whose iteration order is unspecified and
randomized, and `CreateOrUpdate`'s deep-equality compares that slice
element-wise.  `demoEnvCanonical` and `demoEnvSwapped` are both
permutations of the demo environment map, hence both legitimate
iteration orders; a first deployment pass observing the canonical order
followed by a second pass on the unchanged cluster observing the
swapped order issues a spurious update, and the stored deployment
changes (its env list is reordered). -/
theorem c1_counterexample :
    demoEnvCanonical.Perm (depEnvMap democfg demoUrl 4 9090 true true) ∧
    demoEnvSwapped.Perm (depEnvMap democfg demoUrl 4 9090 true true) ∧
    Ev.updated .dep ∈
      (reconcileDeploymentOrd democfg demoUrl demoIcfg ("shop", "web") demoEnvSwapped
        { cluster := (reconcileDeploymentOrd democfg demoUrl demoIcfg ("shop", "web")
            demoEnvCanonical { cluster := democl, trace := [] }).2.cluster,
          trace := [] }).2.trace ∧
    getR (reconcileDeploymentOrd democfg demoUrl demoIcfg ("shop", "web") demoEnvSwapped
        { cluster := (reconcileDeploymentOrd democfg demoUrl demoIcfg ("shop", "web")
            demoEnvCanonical { cluster := democl, trace := [] }).2.cluster,
          trace := [] }).2.cluster.deployments ("ingress-anubis", "ia-web") ≠
      getR (reconcileDeploymentOrd democfg demoUrl demoIcfg ("shop", "web")
          demoEnvCanonical { cluster := democl, trace := [] }).2.cluster.deployments
        ("ingress-anubis", "ia-web") :=
  ⟨by decide, by decide, by decide, by decide⟩

/-- C1 (amended): with source, target, directive configuration and
request fixed, a second triad synchronization is idempotent up to the
container-env-list ordering left unspecified by Go's randomized map
iteration.  For any two legitimate iteration orders `L1`, `L2` (any
permutations of the assembled environment map): both passes succeed;
the service and rewritten-ingress stores come out of the second pass
exactly as the first left them; every other deployment entry is
untouched; the second pass issues no create, and any update it issues
concerns only the worker deployment; the stored worker deployment
after the second pass equals the one after the first up to a
permutation of its env list; and when the second pass observes the
same order as the first it is exactly idempotent — identical cluster
and only the three synchronization trace entries. -/
theorem c1_sync_idem_up_to_env_order (cfg : Config) (target : String) (origIng : Ingress)
    (icfg : IngressConfigM) (req : ObjKey) (diff mp : Int) (srt ogp : Bool)
    (h1 : icfg.difficulty = some diff) (h2 : icfg.metricsPort = some mp)
    (h3 : icfg.serveRobotsTxt = some srt) (h4 : icfg.ogPassthrough = some ogp)
    (L1 L2 : List (String × String))
    (hL1 : L1.Perm (depEnvMap cfg target diff mp srt ogp))
    (hL2 : L2.Perm (depEnvMap cfg target diff mp srt ogp))
    (s : RState) :
    ∃ s1 s2,
      syncTriadOrd cfg target origIng icfg req L1 s = (.ok (), s1) ∧
      syncTriadOrd cfg target origIng icfg req L2 { cluster := s1.cluster, trace := [] } =
        (.ok (), s2) ∧
      s2.cluster.services = s1.cluster.services ∧
      s2.cluster.ingresses = s1.cluster.ingresses ∧
      (∀ q, q ≠ (cfg.ns, "ia-" ++ req.2) →
        getR s2.cluster.deployments q = getR s1.cluster.deployments q) ∧
      (∀ k, Ev.created k ∉ s2.trace) ∧
      (∀ k, Ev.updated k ∈ s2.trace → k = Kind.dep) ∧
      (∃ d1 e2, getR s1.cluster.deployments (cfg.ns, "ia-" ++ req.2) = some d1 ∧
        getR s2.cluster.deployments (cfg.ns, "ia-" ++ req.2) = some (withEnv d1 e2) ∧
        envsOf d1 = [L1.map (fun kv => EnvVar.mk kv.1 kv.2)] ∧
        e2.Perm (L1.map (fun kv => EnvVar.mk kv.1 kv.2))) ∧
      (L2 = L1 →
        s2.cluster = s1.cluster ∧
        s2.trace = [Ev.sync .dep, Ev.sync .svc, Ev.sync .ing]) := by
  obtain ⟨D, evD, d1, hD1, hd1get, hstab, henv⟩ :=
    recDepOrd_pass cfg target icfg req diff mp srt ogp h1 h2 h3 h4 L1 s
  obtain ⟨S, evS, hS1, hS2, hSno, hSmem⟩ := recSvc_pass cfg req
    { cluster := { s.cluster with deployments := D }, trace := s.trace ++ evD }
  obtain ⟨I, evI, hI1, hI2, hIno, hImem⟩ := recIng_pass cfg origIng icfg req
    { cluster := { { s.cluster with deployments := D } with services := S },
      trace := (s.trace ++ evD) ++ evS }
  have hpass1 : syncTriadOrd cfg target origIng icfg req L1 s =
      (.ok (), { cluster := { ingresses := I, services := S, deployments := D },
                 trace := ((s.trace ++ evD) ++ evS) ++ evI }) := by
    simp only [syncTriadOrd, bind_eq, M.bind]
    rw [hD1]
    simp only []
    rw [hS1]
    simp only []
    rw [hI1]
  have hmut2 : mutateDeploymentOrd cfg target icfg req L2 d1 =
      .ok (withEnv d1 (L2.map (fun kv => EnvVar.mk kv.1 kv.2))) :=
    mutateDeploymentOrd_env_shift cfg target icfg req diff mp srt ogp h1 h2 h3 h4
      L1 L2 d1 d1 hstab
  have hperm : (L2.map (fun kv => EnvVar.mk kv.1 kv.2)).Perm
      (L1.map (fun kv => EnvVar.mk kv.1 kv.2)) :=
    List.Perm.map _ (hL2.trans hL1.symm)
  by_cases heq : withEnv d1 (L2.map (fun kv => EnvVar.mk kv.1 kv.2)) = d1
  · have hdep2 : reconcileDeploymentOrd cfg target icfg req L2
        { cluster := { ingresses := I, services := S, deployments := D }, trace := [] } =
        (.ok (), { cluster := { ingresses := I, services := S, deployments := D },
                   trace := [Ev.sync .dep] }) := by
      simp [reconcileDeploymentOrd, bind_eq, pure_eq, M.bind, M.pure, getCl, setCl, emit,
            liftO, hd1get, hmut2, heq]
    have hsvc2 := hS2 { ingresses := I, services := S, deployments := D } [Ev.sync .dep] rfl
    have hing2 := hI2 { ingresses := I, services := S, deployments := D }
      [Ev.sync .dep, Ev.sync .svc] rfl
    have hpass2 : syncTriadOrd cfg target origIng icfg req L2
        { cluster := { ingresses := I, services := S, deployments := D }, trace := [] } =
        (.ok (), { cluster := { ingresses := I, services := S, deployments := D },
                   trace := [Ev.sync .dep, Ev.sync .svc, Ev.sync .ing] }) := by
      simp only [syncTriadOrd, bind_eq, M.bind]
      rw [hdep2]
      simp only []
      rw [hsvc2]
      simp only []
      rw [show ([Ev.sync .dep] : List Ev) ++ [Ev.sync .svc] = [Ev.sync .dep, Ev.sync .svc]
        from rfl] at *
      rw [hing2]
      simp
    refine ⟨{ cluster := { ingresses := I, services := S, deployments := D },
              trace := ((s.trace ++ evD) ++ evS) ++ evI },
            { cluster := { ingresses := I, services := S, deployments := D },
              trace := [Ev.sync .dep, Ev.sync .svc, Ev.sync .ing] },
            hpass1, hpass2, rfl, rfl, fun q hq => rfl, ?_, ?_, ?_, fun hll => ⟨rfl, rfl⟩⟩
    · intro k
      simp
    · intro k hk
      simp at hk
    · refine ⟨d1, L1.map (fun kv => EnvVar.mk kv.1 kv.2), hd1get, ?_, henv, List.Perm.refl _⟩
      rw [withEnv_self d1 _ henv]
      exact hd1get
  · have hdep2 : reconcileDeploymentOrd cfg target icfg req L2
        { cluster := { ingresses := I, services := S, deployments := D }, trace := [] } =
        (.ok (), { cluster := { ingresses := I, services := S, deployments := putR D (cfg.ns, "ia-" ++ req.2) (withEnv d1 (L2.map (fun kv => EnvVar.mk kv.1 kv.2))) }, trace := [Ev.sync .dep, Ev.updated .dep] }) := by
      simp [reconcileDeploymentOrd, bind_eq, pure_eq, M.bind, M.pure, getCl, setCl, emit,
            liftO, hd1get, hmut2, heq]
    have hsvc2 := hS2 { ingresses := I, services := S, deployments := putR D (cfg.ns, "ia-" ++ req.2) (withEnv d1 (L2.map (fun kv => EnvVar.mk kv.1 kv.2))) }
      [Ev.sync .dep, Ev.updated .dep] rfl
    have hing2 := hI2 { ingresses := I, services := S, deployments := putR D (cfg.ns, "ia-" ++ req.2) (withEnv d1 (L2.map (fun kv => EnvVar.mk kv.1 kv.2))) }
      [Ev.sync .dep, Ev.updated .dep, Ev.sync .svc] rfl
    have hpass2 : syncTriadOrd cfg target origIng icfg req L2
        { cluster := { ingresses := I, services := S, deployments := D }, trace := [] } =
        (.ok (), { cluster := { ingresses := I, services := S, deployments := putR D (cfg.ns, "ia-" ++ req.2) (withEnv d1 (L2.map (fun kv => EnvVar.mk kv.1 kv.2))) }, trace := [Ev.sync .dep, Ev.updated .dep, Ev.sync .svc, Ev.sync .ing] }) := by
      simp only [syncTriadOrd, bind_eq, M.bind]
      rw [hdep2]
      simp only []
      rw [hsvc2]
      simp only []
      rw [show ([Ev.sync .dep, Ev.updated .dep] : List Ev) ++ [Ev.sync .svc] =
        [Ev.sync .dep, Ev.updated .dep, Ev.sync .svc] from rfl] at *
      rw [hing2]
      simp
    refine ⟨{ cluster := { ingresses := I, services := S, deployments := D },
              trace := ((s.trace ++ evD) ++ evS) ++ evI },
            { cluster := { ingresses := I, services := S, deployments := putR D (cfg.ns, "ia-" ++ req.2) (withEnv d1 (L2.map (fun kv => EnvVar.mk kv.1 kv.2))) }, trace := [Ev.sync .dep, Ev.updated .dep, Ev.sync .svc, Ev.sync .ing] },
            hpass1, hpass2, rfl, rfl, ?_, ?_, ?_, ?_, ?_⟩
    · intro q hq
      exact getR_putR_ne D (cfg.ns, "ia-" ++ req.2) q _ (Ne.symm hq)
    · intro k
      simp
    · intro k hk
      simpa using hk
    · exact ⟨d1, L2.map (fun kv => EnvVar.mk kv.1 kv.2), hd1get, getR_putR_self _ _ _,
        henv, hperm⟩
    · intro hll
      subst hll
      exact absurd (withEnv_self d1 _ henv) heq

/-- Witness for the amended C1 at the demo source: a first pass with
the canonical iteration order and a second with the swapped one,
starting from the demo cluster. -/
theorem c1_env_order_witness :
    demoIcfg.difficulty = some 4 ∧ demoIcfg.metricsPort = some 9090 ∧
    demoIcfg.serveRobotsTxt = some true ∧ demoIcfg.ogPassthrough = some true ∧
    demoEnvCanonical.Perm (depEnvMap democfg demoUrl 4 9090 true true) ∧
    demoEnvSwapped.Perm (depEnvMap democfg demoUrl 4 9090 true true) ∧
    (∃ s1 s2,
      syncTriadOrd democfg demoUrl demoWeb demoIcfg ("shop", "web") demoEnvCanonical
        { cluster := democl, trace := [] } = (.ok (), s1) ∧
      syncTriadOrd democfg demoUrl demoWeb demoIcfg ("shop", "web") demoEnvSwapped
        { cluster := s1.cluster, trace := [] } = (.ok (), s2) ∧
      s2.cluster.services = s1.cluster.services ∧
      s2.cluster.ingresses = s1.cluster.ingresses ∧
      (∀ q, q ≠ (democfg.ns, "ia-" ++ ("shop", "web").2) →
        getR s2.cluster.deployments q = getR s1.cluster.deployments q) ∧
      (∀ k, Ev.created k ∉ s2.trace) ∧
      (∀ k, Ev.updated k ∈ s2.trace → k = Kind.dep) ∧
      (∃ d1 e2, getR s1.cluster.deployments (democfg.ns, "ia-" ++ ("shop", "web").2) =
          some d1 ∧
        getR s2.cluster.deployments (democfg.ns, "ia-" ++ ("shop", "web").2) =
          some (withEnv d1 e2) ∧
        envsOf d1 = [demoEnvCanonical.map (fun kv => EnvVar.mk kv.1 kv.2)] ∧
        e2.Perm (demoEnvCanonical.map (fun kv => EnvVar.mk kv.1 kv.2))) ∧
      (demoEnvSwapped = demoEnvCanonical →
        s2.cluster = s1.cluster ∧
        s2.trace = [Ev.sync .dep, Ev.sync .svc, Ev.sync .ing])) :=
  ⟨rfl, rfl, rfl, rfl, by decide, by decide,
   c1_sync_idem_up_to_env_order democfg demoUrl demoWeb demoIcfg ("shop", "web")
     4 9090 true true rfl rfl rfl rfl demoEnvCanonical demoEnvSwapped
     (by decide) (by decide) { cluster := democl, trace := [] }⟩


/-! ## Claim C4: component order in the active-finalized state -/

/-- C4 (amended): in the active-finalized state, Reconcile runs the
Backend Target Resolver first, then the Override Extractor, then the
Managed Resource Synchronizer, in that order, short-circuiting on the
first failure: a resolver failure (or panic) returns that outcome with
no extractor entry and no synchronizer entry in the trace; an extractor
failure returns that error with the resolver already recorded and no
synchronizer entry; and when both succeed the pass succeeds with every
resolver entry before every extractor entry and every extractor entry
before every synchronizer entry. -/
theorem c4_component_order (cfg : Config) (c : Cluster) (req : ObjKey) (orig : Ingress)
    (sb : Option IngressServiceBackend)
    (hget : getR c.ingresses req = some orig)
    (hclass : orig.spec.ingressClassName = some cfg.ingressClassName)
    (hmanaged : lookupL orig.labels ManagedLabel ≠ some "true")
    (hdts : orig.deletionTimestampIsZero = true)
    (hfin : FinalizerKey ∈ orig.finalizers)
    (hsel : selectBackend orig = .ok sb) :
    (∀ b m s1,
       getTargetFromService orig.ns sb { cluster := c, trace := [] } = (.fail b m, s1) →
       reconcile cfg req { cluster := c, trace := [] } = (.fail b m, s1) ∧
       Ev.extract ∉ s1.trace ∧ (∀ k, Ev.sync k ∉ s1.trace)) ∧
    (∀ m s1,
       getTargetFromService orig.ns sb { cluster := c, trace := [] } = (.panicked m, s1) →
       reconcile cfg req { cluster := c, trace := [] } = (.panicked m, s1) ∧
       Ev.extract ∉ s1.trace ∧ (∀ k, Ev.sync k ∉ s1.trace)) ∧
    (∀ target s1 b m,
       getTargetFromService orig.ns sb { cluster := c, trace := [] } = (.ok target, s1) →
       GetIngressConfigM (some orig) = .fail b m →
       reconcile cfg req { cluster := c, trace := [] } =
         (.fail b m, { cluster := s1.cluster, trace := s1.trace ++ [Ev.extract] }) ∧
       Ev.resolve ∈ s1.trace ∧ (∀ k, Ev.sync k ∉ s1.trace ++ [Ev.extract])) ∧
    (∀ target s1 icfg,
       getTargetFromService orig.ns sb { cluster := c, trace := [] } = (.ok target, s1) →
       GetIngressConfigM (some orig) = .ok icfg →
       (reconcile cfg req { cluster := c, trace := [] }).1 = .ok { requeue := false } ∧
       Ev.resolve ∈ (reconcile cfg req { cluster := c, trace := [] }).2.trace ∧
       Ev.extract ∈ (reconcile cfg req { cluster := c, trace := [] }).2.trace ∧
       Ev.sync .dep ∈ (reconcile cfg req { cluster := c, trace := [] }).2.trace ∧
       Ev.sync .svc ∈ (reconcile cfg req { cluster := c, trace := [] }).2.trace ∧
       Ev.sync .ing ∈ (reconcile cfg req { cluster := c, trace := [] }).2.trace ∧
       allBefore isResolveEv isExtractEv
         (reconcile cfg req { cluster := c, trace := [] }).2.trace = true ∧
       allBefore isExtractEv isSyncEv
         (reconcile cfg req { cluster := c, trace := [] }).2.trace = true) := by
  refine ⟨?_, ?_, ?_, ?_⟩
  · intro b m s1 hres
    obtain ⟨-, hsh⟩ := getTarget_trace _ _ _ _ _ hres
    have hred : reconcile cfg req { cluster := c, trace := [] } = (.fail b m, s1) := by
      simp [reconcile, bind_eq, pure_eq, M.bind, M.pure, getCl, emit, liftO, notOurs,
            hget, hclass, hmanaged, hdts, hfin, hsel, hres]
    refine ⟨hred, ?_, ?_⟩
    · rcases hsh with h | ⟨k, h⟩ <;> simp [h]
    · intro k2
      rcases hsh with h | ⟨k, h⟩ <;> simp [h]
  · intro m s1 hres
    obtain ⟨-, hsh⟩ := getTarget_trace _ _ _ _ _ hres
    have hred : reconcile cfg req { cluster := c, trace := [] } = (.panicked m, s1) := by
      simp [reconcile, bind_eq, pure_eq, M.bind, M.pure, getCl, emit, liftO, notOurs,
            hget, hclass, hmanaged, hdts, hfin, hsel, hres]
    refine ⟨hred, ?_, ?_⟩
    · rcases hsh with h | ⟨k, h⟩ <;> simp [h]
    · intro k2
      rcases hsh with h | ⟨k, h⟩ <;> simp [h]
  · intro target s1 b m hres hex
    obtain ⟨-, hsh⟩ := getTarget_trace _ _ _ _ _ hres
    have hred : reconcile cfg req { cluster := c, trace := [] } =
        (.fail b m, { cluster := s1.cluster, trace := s1.trace ++ [Ev.extract] }) := by
      simp [reconcile, bind_eq, pure_eq, M.bind, M.pure, getCl, emit, liftO, throwE,
            panicE, notOurs, hget, hclass, hmanaged, hdts, hfin, hsel, hres, hex]
    refine ⟨hred, ?_, ?_⟩
    · rcases hsh with h | ⟨k, h⟩ <;> simp [h]
    · intro k2
      rcases hsh with h | ⟨k, h⟩ <;> simp [h, isSyncEv]
  · intro target s1 icfg hres hex
    obtain ⟨-, hsh⟩ := getTarget_trace _ _ _ _ _ hres
    obtain ⟨x, hx⟩ := GetIngressConfigM_ok_shape _ _ hex
    subst hx
    obtain ⟨hd, hm2, hs2, ho2⟩ := applyDefaultsM_isSome x
    rcases Option.isSome_iff_exists.mp hd with ⟨diff, hdiff⟩
    rcases Option.isSome_iff_exists.mp hm2 with ⟨mp, hmp⟩
    rcases Option.isSome_iff_exists.mp hs2 with ⟨srt, hsrt⟩
    rcases Option.isSome_iff_exists.mp ho2 with ⟨ogp, hogp⟩
    obtain ⟨D, evD, hD1, -, hDno, hDmem⟩ :=
      recDep_pass cfg target (applyDefaultsM x) req diff mp srt ogp hdiff hmp hsrt hogp
        { cluster := s1.cluster, trace := s1.trace ++ [Ev.extract] }
    obtain ⟨S, evS, hS1, -, hSno, hSmem⟩ := recSvc_pass cfg req
      { cluster := { ingresses := s1.cluster.ingresses, services := s1.cluster.services,
                     deployments := D },
        trace := s1.trace ++ Ev.extract :: evD }
    obtain ⟨I, evI, hI1, -, hIno, hImem⟩ := recIng_pass cfg orig (applyDefaultsM x) req
      { cluster := { ingresses := s1.cluster.ingresses, services := S, deployments := D },
        trace := s1.trace ++ Ev.extract :: (evD ++ evS) }
    have hred : reconcile cfg req { cluster := c, trace := [] } =
        (.ok { requeue := false },
         { cluster := { ingresses := I, services := S, deployments := D },
           trace := (((s1.trace ++ [Ev.extract]) ++ evD) ++ evS) ++ evI }) := by
      simp [reconcile, syncTriad, bind_eq, pure_eq, M.bind, M.pure, getCl, emit, liftO,
            throwE, panicE, notOurs, hget, hclass, hmanaged, hdts, hfin, hsel, hres, hex,
            hD1, hS1, hI1]
    rw [hred]
    have htr : ∀ e ∈ s1.trace, isExtractEv e = false ∧ isSyncEv e = false ∧
        (e = Ev.resolve ∨ isResolveEv e = false) := by
      intro e he
      rcases hsh with h | ⟨k, h⟩ <;> rw [h] at he <;> simp at he <;>
        rcases he with rfl | rfl <;> simp [isExtractEv, isSyncEv, isResolveEv]
    have hresolve : Ev.resolve ∈ s1.trace := by
      rcases hsh with h | ⟨k, h⟩ <;> simp [h]
    refine ⟨rfl, ?_, ?_, ?_, ?_, ?_, ?_, ?_⟩
    · simp [hresolve]
    · simp
    · simp [hDmem]
    · simp [hSmem]
    · simp [hImem]
    · have := allBefore_split isResolveEv isExtractEv s1.trace
        ([Ev.extract] ++ (evD ++ (evS ++ evI)))
        (fun e he => (htr e he).1)
        (fun e he => by
          rcases List.mem_append.mp he with h | h
          · simp at h
            simp [h, isResolveEv]
          · rcases List.mem_append.mp h with h2 | h2
            · exact (hDno e h2).1
            · rcases List.mem_append.mp h2 with h3 | h3
              · exact (hSno e h3).1
              · exact (hIno e h3).1)
      simpa [List.append_assoc] using this
    · have := allBefore_split isExtractEv isSyncEv (s1.trace ++ [Ev.extract])
        (evD ++ (evS ++ evI))
        (fun e he => by
          rcases List.mem_append.mp he with h | h
          · exact (htr e h).2.1
          · simp at h
            simp [h, isSyncEv])
        (fun e he => by
          rcases List.mem_append.mp he with h2 | h2
          · exact (hDno e h2).2
          · rcases List.mem_append.mp h2 with h3 | h3
            · exact (hSno e h3).2
            · exact (hIno e h3).2)
      simpa [List.append_assoc] using this

/-- C4 counterexample: a finalized source whose difficulty annotation
is unparsable and whose backend needs a failing named-port lookup ends
with the resolver's retriable error and a trace holding the resolver
entry but no extractor entry, even though extraction of this ingress
fails — so the Override Extractor did not run before the Backend Target
Resolver, contradicting the claimed order. -/
theorem c4_counterexample :
    reconcile democfg ("shop", "web")
        { cluster := { ingresses := [(("shop", "web"), demoBadBoth)] }, trace := [] } =
      (.fail false "failed to look up service for port name translation: not found",
       { cluster := { ingresses := [(("shop", "web"), demoBadBoth)] },
         trace := [Ev.resolve, Ev.svcLookup ("shop", "backend")] }) ∧
    Ev.extract ∉ ([Ev.resolve, Ev.svcLookup ("shop", "backend")] : List Ev) ∧
    GetIngressConfigM (some demoBadBoth) =
      .fail false ("failed to parse annotation " ++ AnnotationKeyDifficulty
        ++ " value \"abc\" as int") :=
  ⟨by decide, by decide, by decide⟩

/-- Witness for the amended C4 at the finalized demo source with its
numeric-port backend. -/
theorem c4_witness :
    getR democl.ingresses ("shop", "web") = some demoWeb ∧
    demoWeb.spec.ingressClassName = some democfg.ingressClassName ∧
    lookupL demoWeb.labels ManagedLabel ≠ some "true" ∧
    demoWeb.deletionTimestampIsZero = true ∧
    FinalizerKey ∈ demoWeb.finalizers ∧
    selectBackend demoWeb = .ok (some demoNumericBackend) ∧
    ((∀ b m s1,
       getTargetFromService demoWeb.ns (some demoNumericBackend)
           { cluster := democl, trace := [] } = (.fail b m, s1) →
       reconcile democfg ("shop", "web") { cluster := democl, trace := [] } = (.fail b m, s1) ∧
       Ev.extract ∉ s1.trace ∧ (∀ k, Ev.sync k ∉ s1.trace)) ∧
    (∀ m s1,
       getTargetFromService demoWeb.ns (some demoNumericBackend)
           { cluster := democl, trace := [] } = (.panicked m, s1) →
       reconcile democfg ("shop", "web") { cluster := democl, trace := [] } = (.panicked m, s1) ∧
       Ev.extract ∉ s1.trace ∧ (∀ k, Ev.sync k ∉ s1.trace)) ∧
    (∀ target s1 b m,
       getTargetFromService demoWeb.ns (some demoNumericBackend)
           { cluster := democl, trace := [] } = (.ok target, s1) →
       GetIngressConfigM (some demoWeb) = .fail b m →
       reconcile democfg ("shop", "web") { cluster := democl, trace := [] } =
         (.fail b m, { cluster := s1.cluster, trace := s1.trace ++ [Ev.extract] }) ∧
       Ev.resolve ∈ s1.trace ∧ (∀ k, Ev.sync k ∉ s1.trace ++ [Ev.extract])) ∧
    (∀ target s1 icfg,
       getTargetFromService demoWeb.ns (some demoNumericBackend)
           { cluster := democl, trace := [] } = (.ok target, s1) →
       GetIngressConfigM (some demoWeb) = .ok icfg →
       (reconcile democfg ("shop", "web") { cluster := democl, trace := [] }).1
         = .ok { requeue := false } ∧
       Ev.resolve ∈ (reconcile democfg ("shop", "web")
         { cluster := democl, trace := [] }).2.trace ∧
       Ev.extract ∈ (reconcile democfg ("shop", "web")
         { cluster := democl, trace := [] }).2.trace ∧
       Ev.sync .dep ∈ (reconcile democfg ("shop", "web")
         { cluster := democl, trace := [] }).2.trace ∧
       Ev.sync .svc ∈ (reconcile democfg ("shop", "web")
         { cluster := democl, trace := [] }).2.trace ∧
       Ev.sync .ing ∈ (reconcile democfg ("shop", "web")
         { cluster := democl, trace := [] }).2.trace ∧
       allBefore isResolveEv isExtractEv
         (reconcile democfg ("shop", "web") { cluster := democl, trace := [] }).2.trace
           = true ∧
       allBefore isExtractEv isSyncEv
         (reconcile democfg ("shop", "web") { cluster := democl, trace := [] }).2.trace
           = true)) :=
  ⟨by decide, rfl, by decide, rfl, by decide, by decide,
   c4_component_order democfg democl ("shop", "web") demoWeb (some demoNumericBackend)
     (by decide) rfl (by decide) rfl (by decide) (by decide)⟩

end IA
